/-
  Verification of the OODA agent loop (src/agent.py) of the erc3-ooda-agent
  repository.

  Shallow embedding conventions:
  * Python strings are modelled as `List Char` (`Str`), so that splitting,
    stripping and joining can be reasoned about by list induction.
  * The reasoning engine (OpenAI client) and the domain API (erc3 client) are
    external collaborators; they are modelled as oracles: functions from the
    call index to a response.  The conversation (`messages` list) only feeds
    the reasoning oracle, so message appends are recorded as trace events and
    the context string built for each step (step header, memory, scratch tail,
    recent IDs, customer-code hint) is not reconstructed textually.
  * Pydantic request objects form a closed tagged union probed by `getattr`;
    they are embedded as one record with a kind tag and `Option`-valued
    fields, `none` standing for "attribute absent or `None`".
  * `trace.log` / `core.log_llm` (audit logging) have no effect on control
    flow and are not modelled; `api.who_am_i()` is intake data (`Task`), and
    the final `provide_agent_response` submission is modelled as infallible.
-/
import Mathlib

set_option maxHeartbeats 1000000

namespace Ooda

/-- Python `str` as a list of characters. -/
abbrev Str := List Char

/-- ASCII whitespace stripped by Python `str.strip()` / matched by `\s`
    (`' '`, `'\t'`, `'\n'`, `'\r'`, `'\x0b'`, `'\x0c'`; further Unicode
    whitespace never occurs in the strings the agent builds). -/
def isSpace (c : Char) : Bool :=
  c = ' ' || c = '\t' || c = '\n' || c = '\r' || c = '\x0b' || c = '\x0c'

/-- Python `str.lower()` (the texts involved are ASCII). -/
def strLower (s : Str) : Str := s.map Char.toLower

/-- `s.lstrip()`. -/
def ltrim (s : Str) : Str := s.dropWhile isSpace

/-- `s.rstrip()`. -/
def rtrim (s : Str) : Str := (s.reverse.dropWhile isSpace).reverse

/-- Python `s.strip()`. -/
def strip (s : Str) : Str := rtrim (ltrim s)

/-- Substring test on character lists (decides `List.IsInfix`). -/
def isInfixB (needle hay : Str) : Bool := decide (needle <:+: hay)

/-- Python `needle in hay` (substring test). -/
def hasSub (w : String) (t : Str) : Bool := isInfixB w.toList t

/-- Python `l[-n:]` (also for strings). -/
def takeLast (n : Nat) (l : List α) : List α := l.drop (l.length - n)

/-- Python `mem.split("|")`. -/
def splitPipe : Str → List Str
  | [] => [[]]
  | c :: rest =>
    match splitPipe rest with
    | [] => [[]]
    | h :: t => if c = '|' then [] :: h :: t else (c :: h) :: t

/-- Python `sep.join(parts)`. -/
def joinSep (sep : Str) : List Str → Str
  | [] => []
  | [x] => x
  | x :: xs => x ++ sep ++ joinSep sep xs

/-- `list(set(xs))`; Python set iteration order is implementation defined, we
    fix first-occurrence order (no claim depends on the order). -/
def dedupFirst (l : List Str) : List Str :=
  l.foldl (fun acc x => if x ∈ acc then acc else acc ++ [x]) []

/-- `trace._short`: `text if len(text) <= limit else text[:limit-1] + "…"`. -/
def short (text : Str) (limit : Nat) : Str :=
  if text.length ≤ limit then text else text.take (limit - 1) ++ ['…']

/-! ## compress_memory (src/agent.py lines 178-185) -/

/-- The signal markers of `compress_memory`. -/
def SIGNAL_PREFS : List Str :=
  ["proj_".toList, "emp_".toList, "cust_".toList, "→".toList,
   "salary".toList, "logged".toList, "updated".toList]

/-- The comprehension filter on one raw fragment:
    `l.strip() if l.strip() and "ERR" not in l`. -/
def lineFilter (l : Str) : Option Str :=
  let s := strip l
  if s ≠ [] ∧ ¬ (isInfixB "ERR".toList l) then some s else none

/-- `any(pref in l for pref in [...])`. -/
def isSignal (l : Str) : Bool :=
  SIGNAL_PREFS.any (fun pref => isInfixB pref l)

/-- The retained fragments: stripped non-error fragments, last 20, signal
    only, last 12. -/
def compressLines (mem : Str) : List Str :=
  takeLast 12 ((takeLast 20 ((splitPipe mem).filterMap lineFilter)).filter isSignal)

/-- `compress_memory` from src/agent.py:

    lines = [l.strip() for l in mem.split("|") if l.strip() and "ERR" not in l]
    important = [l for l in lines[-20:] if any(pref in l for pref in ...)]
    return " | ".join(important[-12:]) -/
def compress_memory (mem : Str) : Str :=
  joinSep " | ".toList (compressLines mem)

/-! ## _looks_hallucinated (lines 119-127) -/

/-- `re.match(r"^(proj|emp|cust)_\d{1,5}$", id_str)`. -/
def fakeNumericId (s : Str) : Bool :=
  ["proj_", "emp_", "cust_"].any (fun p =>
    p.toList.isPrefixOf s &&
      (let r := s.drop p.length
       1 ≤ r.length && r.length ≤ 5 && r.all Char.isDigit))

/-- `re.match(r"^emp_[a-z]+$", id_str)`. -/
def lowerEmpId (s : Str) : Bool :=
  "emp_".toList.isPrefixOf s &&
    (let r := s.drop 4
     r ≠ [] && r.all (fun c => 'a' ≤ c && c ≤ 'z'))

/-- `_looks_hallucinated` from src/agent.py. -/
def looks_hallucinated (id_str : Str) : Bool :=
  if id_str = [] then false
  else if fakeNumericId id_str then true
  else if "emp_".toList.isPrefixOf id_str && lowerEmpId id_str then true
  else false

/-! ## _classify_error (lines 68-104); ERROR_CLASSES iterates in insertion
    order: permission, system, not_found. -/

inductive ErrClass
  | permission | system | notFound | other
  deriving DecidableEq, Repr

def PERMISSION_INDICATORS : List String :=
  ["permission", "denied", "unauthorized", "forbidden", "not allowed",
   "access denied", "not authorized", "cannot modify", "only lead",
   "not a member", "not lead", "no access", "restricted"]

def SYSTEM_INDICATORS : List String :=
  ["internal server error", "system error", "service unavailable",
   "connection refused", "timeout", "500", "503", "502",
   "page limit exceeded"]

def NOT_FOUND_INDICATORS : List String :=
  ["not found", "does not exist", "no such", "unknown"]

/-- `_classify_error` from src/agent.py. -/
def classify_error (text : Str) : ErrClass :=
  let t := strLower text
  if PERMISSION_INDICATORS.any (fun i => hasSub i t) then .permission
  else if SYSTEM_INDICATORS.any (fun i => hasSub i t) then .system
  else if NOT_FOUND_INDICATORS.any (fun i => hasSub i t) then .notFound
  else .other

/-- The f-string name of an error class (`ERR[{etype}]`). -/
def errName : ErrClass → String
  | .permission => "permission"
  | .system => "system"
  | .notFound => "not_found"
  | .other => "other"

/-! ## _extract_ids (lines 115-116):
    `re.findall(r"(proj_[A-Za-z0-9_]+|emp_[A-Za-z0-9_]+|cust_[A-Za-z0-9_]+)", text)`
    followed by `list(set(...))`. -/

/-- `[A-Za-z0-9_]`. -/
def isIdChar (c : Char) : Bool :=
  ('A' ≤ c && c ≤ 'Z') || ('a' ≤ c && c ≤ 'z') || ('0' ≤ c && c ≤ '9') || c = '_'

/-- Try to match one alternative of the ID regex at the head of `s`;
    returns the (greedy) match and the remaining text. -/
def idAt (s : Str) : Option (Str × Str) :=
  (["proj_", "emp_", "cust_"].firstM (fun p =>
    if p.toList.isPrefixOf s then
      let r := s.drop p.length
      let w := r.takeWhile isIdChar
      if w = [] then none else some (p.toList ++ w, r.dropWhile isIdChar)
    else none) : Option (Str × Str))

/-- `re.findall` scan: non-overlapping, left to right; the fuel is the text
    length (each step consumes at least one character, so it is exact). -/
def extractIdsAux : Nat → Str → List Str
  | 0, _ => []
  | _,  [] => []
  | fuel + 1, s@(_ :: rest) =>
    match idAt s with
    | some (i, rem) => i :: extractIdsAux fuel rem
    | none => extractIdsAux fuel rest

/-- `_extract_ids` from src/agent.py. -/
def extract_ids (text : Str) : List Str :=
  dedupFirst (extractIdsAux text.length text)

/-! ## _build_links (lines 150-158) -/

structure Link where
  id : Str
  kind : String
  deriving DecidableEq, Repr

/-- `_build_links` from src/agent.py (`for lid in set(ids)`, kind by
    substring test; entries without a recognized kind are dropped). -/
def build_links (ids : List Str) (excludeOnError : Bool) : List Link :=
  if excludeOnError then [] else
  (dedupFirst ids).filterMap (fun lid =>
    if hasSub "proj_" lid then some ⟨lid, "project"⟩
    else if hasSub "emp_" lid then some ⟨lid, "employee"⟩
    else if hasSub "cust_" lid then some ⟨lid, "customer"⟩
    else none)

/-! ## Regex matchers for the static pattern tables (lines 54-66)

    `re.search(pat, t)` is existence of a match at some position; each
    pattern is implemented as a match-at-position function and searched over
    all suffixes.  Greedy whitespace consumption is sound here because in
    every pattern the token following `\s+`/`\s*` starts with a
    non-whitespace character. -/

/-- Consume the literal `p`; `none` if it is not a prefix. -/
def lit (p : String) (s : Str) : Option Str :=
  if p.toList.isPrefixOf s then some (s.drop p.length) else none

/-- `\s*`. -/
def wsStar (s : Str) : Str := s.dropWhile isSpace

/-- `\s+`. -/
def wsPlus : Str → Option Str
  | [] => none
  | c :: rest => if isSpace c then some (rest.dropWhile isSpace) else none

/-- `wipe\s+(my|all)?\s*data` at the current position. -/
def wipeAt (s : Str) : Bool :=
  match lit "wipe" s with
  | none => false
  | some r =>
    match wsPlus r with
    | none => false
    | some r2 =>
      let dataAfter (r3 : Str) : Bool := "data".toList.isPrefixOf (wsStar r3)
      dataAfter r2 ||
        (match lit "my" r2 with | some r3 => dataAfter r3 | none => false) ||
        (match lit "all" r2 with | some r3 => dataAfter r3 | none => false)

/-- Scan for `respond\s*with`, the gap (`.*`) may not cross a newline. -/
def respondWithScan : Str → Bool
  | [] => false
  | s@(c :: rest) =>
    (match lit "respond" s with
     | some r => "with".toList.isPrefixOf (wsStar r)
     | none => false) ||
    (if c = '\n' then false else respondWithScan rest)

/-- `context:\s*ceo.*respond\s*with` at the current position. -/
def ceoAt (s : Str) : Bool :=
  match lit "context:" s with
  | none => false
  | some r =>
    match lit "ceo" (wsStar r) with
    | none => false
    | some r2 => respondWithScan r2

/-- `(team|teammate|colleague)` at the current position (only existence of a
    match matters, so a prefix test per alternative suffices). -/
def teamWordAt (s : Str) : Bool :=
  "team".toList.isPrefixOf s || "teammate".toList.isPrefixOf s ||
    "colleague".toList.isPrefixOf s

/-- `salary\s+of\s+(my\s+)?(team|teammate|colleague)` at the current position. -/
def salaryCoreAt (s : Str) : Bool :=
  match lit "salary" s with
  | none => false
  | some r =>
    match wsPlus r with
    | none => false
    | some r2 =>
      match lit "of" r2 with
      | none => false
      | some r3 =>
        match wsPlus r3 with
        | none => false
        | some r4 =>
          teamWordAt r4 ||
            (match lit "my" r4 with
             | some r5 => match wsPlus r5 with
               | some r6 => teamWordAt r6
               | none => false
             | none => false)

/-- `(total\s+)?salary\s+of\s+(my\s+)?(team|teammate|colleague)` at the
    current position. -/
def salaryOfAt (s : Str) : Bool :=
  salaryCoreAt s ||
    (match lit "total" s with
     | some r => match wsPlus r with
       | some r2 => salaryCoreAt r2
       | none => false
     | none => false)

/-- Scan for `(salary|salaries)`, the gap (`.*`) may not cross a newline. -/
def salaryScan : Str → Bool
  | [] => false
  | s@(c :: rest) =>
    "salary".toList.isPrefixOf s || "salaries".toList.isPrefixOf s ||
      (if c = '\n' then false else salaryScan rest)

/-- `team.*(salary|salaries)` at the current position. -/
def teamSalaryAt (s : Str) : Bool :=
  match lit "team" s with
  | some r => salaryScan r
  | none => false

/-- `re.search`: try the position matcher on every suffix. -/
def search (matchAt : Str → Bool) (s : Str) : Bool := s.tails.any matchAt

/-- `DENY_PATTERNS` (lines 54-59), in order with their canned messages. -/
def DENY_PATTERNS : List ((Str → Bool) × String) :=
  [(wipeAt, "Data wipe requires HR approval."),
   (ceoAt, "Cannot impersonate executives."),
   (salaryOfAt, "Salary info is confidential."),
   (teamSalaryAt, "Salary info is confidential.")]

/-- `dependency\s*tracker` at the current position. -/
def depTrackerAt (s : Str) : Bool :=
  match lit "dependency" s with
  | some r => "tracker".toList.isPrefixOf (wsStar r)
  | none => false

/-- `UNSUPPORTED_PATTERNS` (line 61). -/
def UNSUPPORTED_PATTERNS : List ((Str → Bool) × String) :=
  [(depTrackerAt, "Dependency tracking unavailable.")]

/-- `that\s+(cool|awesome|great|nice)\s+(project|thing)` at the position. -/
def vagueThatAt (s : Str) : Bool :=
  match lit "that" s with
  | none => false
  | some r =>
    match wsPlus r with
    | none => false
    | some r2 =>
      ["cool", "awesome", "great", "nice"].any (fun w =>
        match lit w r2 with
        | some r3 =>
          match wsPlus r3 with
          | some r4 => "project".toList.isPrefixOf r4 || "thing".toList.isPrefixOf r4
          | none => false
        | none => false)

/-- `what'?s?\s+the\s+name\s+of\s+that` at the current position
    (each optional element starts with a character `\s+` cannot consume,
    so consume-if-present is exact). -/
def vagueNameAt (s : Str) : Bool :=
  match lit "what" s with
  | none => false
  | some r =>
    let r := match r with
      | '\'' :: rest => rest
      | _ => r
    let r := match r with
      | 's' :: rest => rest
      | _ => r
    match wsPlus r with
    | none => false
    | some r2 =>
      match lit "the" r2 with
      | none => false
      | some r3 =>
        match wsPlus r3 with
        | none => false
        | some r4 =>
          match lit "name" r4 with
          | none => false
          | some r5 =>
            match wsPlus r5 with
            | none => false
            | some r6 =>
              match lit "of" r6 with
              | none => false
              | some r7 =>
                match wsPlus r7 with
                | some r8 => "that".toList.isPrefixOf r8
                | none => false

/-- `which\s+one\s*\?` at the current position. -/
def whichOneAt (s : Str) : Bool :=
  match lit "which" s with
  | none => false
  | some r =>
    match wsPlus r with
    | none => false
    | some r2 =>
      match lit "one" r2 with
      | some r3 => "?".toList.isPrefixOf (wsStar r3)
      | none => false

/-- `VAGUE_PATTERNS` (lines 62-66). -/
def VAGUE_PATTERNS : List (Str → Bool) := [vagueThatAt, vagueNameAt, whichOneAt]

/-- `_match_pattern` (lines 107-112): first matching pattern's message. -/
def match_pattern (text : Str) (patterns : List ((Str → Bool) × String)) :
    Option String :=
  let t := strLower text
  patterns.firstM (fun pm => if search pm.1 t then some pm.2 else none)

/-- `[A-Za-z0-9_]` = `\w` (ASCII). -/
def isWordChar (c : Char) : Bool := isIdChar c

/-- `\bfor\s+(\w+)\b` matched at the current position: captures `\w+`
    (greediness makes the trailing `\b` automatic). -/
def forWordAt (s : Str) : Option Str :=
  match lit "for" s with
  | none => none
  | some r =>
    match wsPlus r with
    | none => none
    | some r2 =>
      let w := r2.takeWhile isWordChar
      if w = [] then none else some w

/-- `re.search(r"\bfor\s+(\w+)\b", t)`: leftmost match, tracking the previous
    character for the leading word boundary. -/
def findForWord : Option Char → Str → Option Str
  | _, [] => none
  | prev, s@(c :: rest) =>
    let boundary := match prev with
      | none => true
      | some p => ¬ isWordChar p
    match (if boundary then forWordAt s else none) with
    | some w => some w
    | none => findForWord (some c) rest

/-! ## Data model: tasks, actions, reasoning steps, oracles

    `erc3`'s pydantic request types form a closed union probed with
    `getattr(fn, attr, None)`; we embed them as one record with a kind tag
    and `Option`-valued fields, `none` = "attribute absent or `None`"
    (the only place this distinction could matter is the `call_key`'s
    display argument, which no decision reads). -/

/-- `String.toList` shorthand for literal text. -/
def str (s : String) : Str := s.toList

inductive ActionKind
  | provideAgentResponse | listProjects | searchProjects | getProject
  | updateProjectStatus | updateProjectTeam | updateWiki
  | listEmployees | searchEmployees | getEmployee | updateEmployeeInfo
  | listCustomers | searchCustomers | getCustomer | logTimeEntry
  deriving DecidableEq, Repr

/-- `fn.__class__.__name__`. -/
def className : ActionKind → String
  | .provideAgentResponse => "Req_ProvideAgentResponse"
  | .listProjects => "Req_ListProjects"
  | .searchProjects => "Req_SearchProjects"
  | .getProject => "Req_GetProject"
  | .updateProjectStatus => "Req_UpdateProjectStatus"
  | .updateProjectTeam => "Req_UpdateProjectTeam"
  | .updateWiki => "Req_UpdateWiki"
  | .listEmployees => "Req_ListEmployees"
  | .searchEmployees => "Req_SearchEmployees"
  | .getEmployee => "Req_GetEmployee"
  | .updateEmployeeInfo => "Req_UpdateEmployeeInfo"
  | .listCustomers => "Req_ListCustomers"
  | .searchCustomers => "Req_SearchCustomers"
  | .getCustomer => "Req_GetCustomer"
  | .logTimeEntry => "Req_LogTimeEntry"

/-- A skill filter entry of `Req_SearchEmployees` (only `max_level` is read
    by the loop). -/
structure SkillFilter where
  max_level : Option Int
  deriving DecidableEq, Repr

/-- One proposed action: kind tag plus the union of the attributes
    `run_task` reads from the pydantic request objects. -/
structure Action where
  kind : ActionKind
  id : Option Str
  employee : Option Str
  project : Option Str
  customer : Option Str
  limit : Option Int
  query : Option Str
  outcome : Option String
  message : Str
  links : List Link
  logged_by : Option Str
  work_category : Option Str
  status : Option Str
  billable : Option Bool
  changed_by : Option Str
  salary : Option Int
  department : Option Str
  location : Option Str
  notes : Option Str
  skills : List SkillFilter
  wills : List Str
  locations : List Str
  deriving DecidableEq, Repr

/-- An action with every optional attribute absent (the base for
    `model_construct` reconstructions and test data). -/
def blankAction (k : ActionKind) : Action :=
  { kind := k, id := none, employee := none, project := none, customer := none,
    limit := none, query := none, outcome := none, message := [], links := [],
    logged_by := none, work_category := none, status := none, billable := none,
    changed_by := none, salary := none, department := none, location := none,
    notes := none, skills := [], wills := [], locations := [] }

/-- The `NextStep` schema (lines 21-50). -/
structure NextStep where
  think : Str
  scratch : Str
  memory : Str
  actions_done : List Str
  filters_tried : List Str
  plan : List Str
  done : Bool
  confirm : Bool
  fallback : Bool
  function : Action
  deriving DecidableEq, Repr

/-- Task intake (`TaskInfo` plus the `who_am_i` response read at start). -/
structure Task where
  text : Str
  isPublic : Bool
  currentUser : Option Str
  today : Str

/-- What a domain-API dispatch returns on success: the serialized response
    and the two attributes the loop probes (`res.projects`' length if the
    attribute is a list, and whether `res.companies` is `None`/absent). -/
structure ApiResult where
  out : Str
  projects : Option Nat
  companiesIsNone : Bool
  deriving DecidableEq, Repr

/-- One domain-API dispatch outcome: success, `ApiException` (typed domain
    error with a message), or a generic fault. -/
inductive ApiOutcome
  | ok (res : ApiResult)
  | apiErr (msg : Str)
  | fault (msg : Str)

/-- External collaborators as oracles: the reasoning engine indexed by
    reasoning-call count (`none` = transport/parse failure), the domain API
    indexed by dispatch count. -/
structure Oracles where
  llm : Nat → Option NextStep
  api : Nat → ApiOutcome

/-- Runtime configuration (`config.MAX_STEPS`, default 30). -/
structure Cfg where
  maxSteps : Nat

def defaultCfg : Cfg := ⟨30⟩

/-- Which code path produced a terminal `provide_agent_response`; mirrors the
    distinct `trace.log` event names of the source.  `response` carries the
    local `outcome` variable (the proposed outcome with `None`/`""`
    defaulted, before the `ok_not_found` rewrite). -/
inductive Via
  | guardShort | guardGate | llmErr | response (proposed : String)
  | permissionDenied | notFoundMutation | systemErr | doneFlag | exhausted
  deriving DecidableEq, Repr

/-- Terminal outcome submission (`provide_agent_response` /
    dispatch of `Req_ProvideAgentResponse`). -/
structure Final where
  outcome : Option String
  message : Str
  links : List Link
  deriving DecidableEq, Repr

/-- Trace events: reasoning calls (with the memory/scratch state passed),
    parse failures, message appends visible to the reasoning engine,
    domain-API dispatches, classified API errors, and the terminal
    submission. -/
inductive Event
  | reason (memory scratch : Str)
  | llmFail
  | inject (content : Str)
  | dispatch (step : Nat) (a : Action)
  | apiError (cls : ErrClass) (msg : Str)
  | finalize (step : Nat) (via : Via) (outcome : Option String)
      (message : Str) (links : List Link)
  deriving DecidableEq, Repr

/-- `LoopState`: the mutable locals of `run_task`'s loop (lines 445-450). -/
structure LoopState where
  memory : Str
  scratch : Str
  allIds : List Str
  apiFails : Nat
  llmFails : Nat
  blockCount : Nat
  systemBroken : Bool
  callHistory : List (String × Str)
  llmCalls : Nat
  apiCalls : Nat
  deriving Repr, DecidableEq

/-! ## Action validation / enrichment (lines 542-584) -/

/-- Limit clamping (lines 542-544): `if hasattr(fn, "limit") and fn.limit
    and fn.limit > 5: fn.limit = 5` (`0`/`None` are falsy). -/
def clampLimit (a : Action) : Action :=
  match a.limit with
  | some v => if v ≠ 0 ∧ v > 5 then { a with limit := some 5 } else a
  | none => a

/-- Hallucinated-ID probe (lines 547-558): first of the attributes
    `id, employee, project, customer` whose value is truthy and looks
    hallucinated. -/
def hallucinatedField (a : Action) : Option Str :=
  (([a.id, a.employee, a.project, a.customer].filterMap (fun v =>
    match v with
    | some s => if s ≠ [] && looks_hallucinated s then some s else none
    | none => none)).head?)

/-- Python `x or y` on an optional string (`None` and `""` are falsy). -/
def orElseStr (v d : Option Str) : Option Str :=
  match v with
  | some s => if s = [] then d else some s
  | none => d

/-- Skill sentinel (lines 568-571): `max_level == 0` means "no upper
    bound". -/
def fixSkill (sk : SkillFilter) : SkillFilter :=
  if sk.max_level = some 0 then { sk with max_level := none } else sk

/-- Time-entry enrichment (lines 563-567). -/
def enrichLogTime (cu : Option Str) (a : Action) : Action :=
  if a.kind = .logTimeEntry then
    { a with logged_by := orElseStr a.logged_by cu,
             work_category := orElseStr a.work_category (some (str "development")),
             status := orElseStr a.status (some (str "draft")),
             billable := some (a.billable.getD true) }
  else a

/-- Search-employees skill enrichment (lines 568-571). -/
def enrichSearchEmp (a : Action) : Action :=
  if a.kind = .searchEmployees ∧ a.skills ≠ [] then
    { a with skills := a.skills.map fixSkill }
  else a

/-- `if v and str(v).strip(): payload[field] = v`. -/
def keepTruthyStripped (v : Option Str) : Option Str :=
  match v with
  | some s => if s ≠ [] ∧ strip s ≠ [] then some s else none
  | none => none

/-- Employee-info-update whitelisting (lines 572-584): rebuild the payload
    with only the identifiers and explicitly supplied non-empty fields. -/
def rebuildUpdateEmployee (cu : Option Str) (a : Action) : Action :=
  if a.kind = .updateEmployeeInfo then
    { blankAction .updateEmployeeInfo with
        employee := a.employee,
        changed_by := orElseStr a.changed_by cu,
        salary := a.salary,
        department := keepTruthyStripped a.department,
        location := keepTruthyStripped a.location,
        notes := keepTruthyStripped a.notes,
        skills := a.skills,
        wills := a.wills }
  else a

/-- The enrichment pipeline (lines 563-584), in source order. -/
def enrich (cu : Option Str) (a : Action) : Action :=
  rebuildUpdateEmployee cu (enrichSearchEmp (enrichLogTime cu a))

/-! ## Premature-completion guard and terminal response (lines 588-634) -/

/-- `any(c[0] == name for c in call_history)`. -/
def histHas (hist : List (String × Str)) (name : String) : Bool :=
  hist.any (fun c => c.1 = name)

/-- `any(w in task_lower for w in ["log", "record"]) and "hour" in
    task_lower` (line 595). -/
def timeLogText (tl : Str) : Bool :=
  (hasSub "log" tl || hasSub "record" tl) && hasSub "hour" tl

/-- `any(w in task_lower for w in ["raise", "increase"]) and "salary" in
    task_lower` (line 598). -/
def salaryText (tl : Str) : Bool :=
  (hasSub "raise" tl || hasSub "increase" tl) && hasSub "salary" tl

/-- `"status" in task_lower and any(w in task_lower for w in ["change",
    "archive", "pause", "resume"])` (lines 601, 623). -/
def statusText (tl : Str) : Bool :=
  hasSub "status" tl && (hasSub "change" tl || hasSub "archive" tl
    || hasSub "pause" tl || hasSub "resume" tl)

/-- The `required` mutation computation (lines 594-603); the three `if`s
    each overwrite `required`, so the last matching one wins. -/
def requiredMutation (tl : Str) (hist : List (String × Str)) : Option String :=
  let r1 := if timeLogText tl = true ∧ histHas hist "Req_LogTimeEntry" = false
            then some "Req_LogTimeEntry" else none
  let r2 := if salaryText tl = true ∧ histHas hist "Req_UpdateEmployeeInfo" = false
            then some "Req_UpdateEmployeeInfo" else r1
  if statusText tl = true ∧ histHas hist "Req_UpdateProjectStatus" = false
  then some "Req_UpdateProjectStatus" else r2

/-- Status-change rewrite (lines 622-627): success converted to
    `denied_security` when no status update ever ran. -/
def statusRewrite (tl : Str) (hist : List (String × Str)) (a : Action) : Action :=
  if statusText tl = true ∧ histHas hist "Req_UpdateProjectStatus" = false
  then { a with outcome := some "denied_security",
                message := str "Project not found or you are not authorized to modify it." }
  else a

/-- `outcome = fn.outcome or "ok_answer"` (`None` and `""` are falsy). -/
def outcomeOrDefault (o : Option String) : String :=
  match o with
  | some s => if s = "" then "ok_answer" else s
  | none => "ok_answer"

/-! Injected message texts (f-strings of the source). -/

def correctiveMsg : Str := str "Return valid JSON for NextStep schema."

def hallMsg (v : Str) : Str :=
  str "⛔ ID \x27" ++ v ++ str "\x27 looks hallucinated. Use exact ID from API response."

def blockedMsg (r : String) : Str :=
  str "⛔ BLOCKED: Task requires " ++ str r ++ str " but it was never called. Execute it first."

def criticalMsg (bc : Nat) (r : String) (memory : Str) : Str :=
  str "⛔ CRITICAL: Blocked " ++ str (toString bc) ++
    str "x. STOP SEARCHING. Call " ++ str r ++
    str " NOW with IDs from memory: " ++ takeLast 200 memory

def multiProjMsg (w : Str) : Str :=
  str "⚠️ Multiple projects found! Task mentions \x27" ++ w ++
    str "\x27. Call GetProject for each and pick one where that employee is in team."

def multiProjTimeMsg (n : Nat) : Str :=
  str "⚠️ CRITICAL: " ++ str (toString n) ++
    str " project(s) found. For time logging, call GetProject on each and select where the target employee is on the team. You can log time even if you are not on that project."

def nordicMsg : Str :=
  str "⚠️ No results for Nordic location. Retry without location, then filter manually by GetCustomer location."

def loopWarnMsg (name : String) : Str :=
  str "⚠️ WARNING: You called " ++ str name ++
    str " three times with same arguments. Change approach or provide final answer NOW."

def disambigScratch (w : Str) : Str :=
  str " | DISAMBIGUATE: check team for \x27" ++ w ++ str "\x27"

def loopMemFrag (name : String) (n : Nat) : Str :=
  str " | LOOP: " ++ str name ++ str " x" ++ str (toString n)

def toolErrMsg (e : ErrClass) (err : Str) : Str :=
  str "ERROR[" ++ str (errName e) ++ str "]: " ++ err

def toolErrGenMsg (err : Str) : Str := str "ERROR: " ++ err

def errMemFrag (e : ErrClass) (err : Str) : Str :=
  str " | ERR[" ++ str (errName e) ++ str "]: " ++ err.take 60

def errMemFragGen (err : Str) : Str := str " | ERR: " ++ err.take 60

/-- Dispatch of the (possibly rewritten) final response (lines 629-634):
    links are cleared on `error_internal` or a broken system, then the
    response is submitted with `fn.outcome` as recorded. -/
def submitResponse (st : LoopState) (step : Nat) (outcomeVar : String)
    (a : Action) : List Event × (Final ⊕ LoopState) :=
  let a := if outcomeVar = "error_internal" ∨ st.systemBroken then
    { a with links := [] } else a
  ([.finalize step (.response outcomeVar) a.outcome a.message a.links],
   .inl ⟨a.outcome, a.message, a.links⟩)

/-- The `Req_ProvideAgentResponse` branch (lines 588-634): `ok_not_found`
    rewrite, premature-completion guard with waiver in the last 5 steps,
    status rewrite, link suppression, submission. -/
def handleFinal (cfg : Cfg) (task : Task) (st : LoopState) (step : Nat)
    (a0 : Action) : List Event × (Final ⊕ LoopState) :=
  let tl := strLower task.text
  let outcomeVar := outcomeOrDefault a0.outcome
  let a1 := if a0.outcome = some "ok_not_found" then
    { a0 with outcome := some "ok_answer" } else a0
  if outcomeVar = "ok_answer" ∧ st.systemBroken = false then
    match requiredMutation tl st.callHistory with
    | some r =>
      let bc := st.blockCount + 1
      let evs := Event.inject (blockedMsg r) ::
        (if bc ≥ 3 then [Event.inject (criticalMsg bc r st.memory)] else [])
      if step < cfg.maxSteps - 5 then (evs, .inr { st with blockCount := bc })
      else
        let res := submitResponse st step outcomeVar (statusRewrite tl st.callHistory a1)
        (evs ++ res.1, res.2)
    | none => submitResponse st step outcomeVar (statusRewrite tl st.callHistory a1)
  else submitResponse st step outcomeVar a1

/-- `ApiException` handling (lines 669-690): classify, append an error
    fragment to memory, then terminate (permission; not-found on a
    status/team mutation; system) or surface the error and continue. -/
def handleApiErr (st : LoopState) (step : Nat) (fn : Action) (err : Str) :
    List Event × (Final ⊕ LoopState) :=
  let etype := classify_error err
  let st := { st with memory := st.memory ++ errMemFrag etype err }
  match etype with
  | .permission =>
    ([.apiError .permission err,
      .finalize step .permissionDenied (some "denied_security") (str "Permission denied.") []],
     .inl ⟨some "denied_security", str "Permission denied.", []⟩)
  | .notFound =>
    if fn.kind = .updateProjectStatus ∨ fn.kind = .updateProjectTeam then
      ([.apiError .notFound err,
        .finalize step .notFoundMutation (some "denied_security")
          (str "You are not authorized to modify this project.") []],
       .inl ⟨some "denied_security", str "You are not authorized to modify this project.", []⟩)
    else
      ([.apiError .notFound err, .inject (toolErrMsg .notFound err)], .inr st)
  | .system =>
    ([.apiError .system err,
      .finalize step .systemErr (some "error_internal") (str "System error.") []],
     .inl ⟨some "error_internal", str "System error.", []⟩)
  | .other =>
    ([.apiError .other err, .inject (toolErrMsg .other err)], .inr st)

/-- The mutation APIs whose success is marked in memory (line 666). -/
def MUTATION_NAMES : List String :=
  ["Req_LogTimeEntry", "Req_UpdateEmployeeInfo", "Req_UpdateProjectStatus",
   "Req_UpdateProjectTeam", "Req_UpdateWiki"]

/-- Post-dispatch success handling (lines 638-734): disambiguation and
    Nordic hints, mutation marker, call history and loop detection,
    conversation appends, ID extraction, memory compression, `done`
    shortcut. -/
def successPhase (task : Task) (st : LoopState) (ns : NextStep) (fn : Action)
    (res : ApiResult) (step : Nat) : List Event × (Final ⊕ LoopState) :=
  let tl := strLower task.text
  let multi : Bool := fn.kind == .searchProjects &&
    (match res.projects with | some n => decide (1 < n) | none => false)
  let es1 :=
    if multi then
      let e1s1 : List Event × Str := match findForWord none tl with
        | some w => ([Event.inject (multiProjMsg w)], st.scratch ++ disambigScratch w)
        | none => ([], st.scratch)
      let e2 := if ((hasSub "log" tl || hasSub "record" tl) && hasSub "hour" tl) = true
        then [Event.inject (multiProjTimeMsg (res.projects.getD 0))] else []
      (e1s1.1 ++ e2, e1s1.2)
    else (([] : List Event), st.scratch)
  let evs2 := if fn.kind = .searchCustomers ∧ res.companiesIsNone = true ∧
      fn.locations ≠ [] ∧
      fn.locations.any (fun l => strLower l = str "danmark" ∨ strLower l = str "denmark"
        ∨ strLower l = str "dk")
    then [Event.inject nordicMsg] else []
  let mem1 := if MUTATION_NAMES.contains (className fn.kind)
    then compress_memory (st.memory ++ str " | ✓" ++ str (className fn.kind))
    else st.memory
  let key : String × Str :=
    (className fn.kind, (strip (fn.query.getD (fn.id.getD (fn.employee.getD [])))).take 40)
  let hist := st.callHistory ++ [key]
  let cnt := hist.count key
  let memEvs3 := if cnt ≥ 3
    then (mem1 ++ loopMemFrag (className fn.kind) cnt,
          [Event.inject (loopWarnMsg (className fn.kind))])
    else (mem1, ([] : List Event))
  let evs4 := [Event.inject ns.think, Event.inject (res.out.take 2000)]
  let ids := st.allIds ++ extract_ids res.out
  let mem3 := compress_memory (memEvs3.1 ++ str " | " ++ short res.out 200)
  let evs := es1.1 ++ evs2 ++ memEvs3.2 ++ evs4
  if ns.done then
    let lk := build_links (takeLast 5 ids) false
    (evs ++ [.finalize step .doneFlag (some "ok_answer") (str "Done.") lk],
     .inl ⟨some "ok_answer", str "Done.", lk⟩)
  else
    let st' : LoopState :=
      { st with memory := mem3, scratch := es1.2, allIds := ids,
                callHistory := hist }
    (evs, .inr st')

/-- Memory merge after a parsed reasoning step (line 516). -/
def mergeMemory (mem1 nsMemory : Str) : Str :=
  if nsMemory ≠ [] then compress_memory (mem1 ++ str " | " ++ strip nsMemory)
  else mem1

/-- Scratch update after a parsed reasoning step (line 518):
    `scratch = ns.scratch[-500:]` when supplied. -/
def updateScratch (old nsScratch : Str) : Str :=
  if nsScratch ≠ [] then takeLast 500 nsScratch else old

/-- One iteration of the agent loop (lines 462-734): system-failure gate,
    memory compression, reasoning call, parse-failure handling, limit
    clamp, hallucination rejection, enrichment, then final-response or
    domain dispatch with error classification. -/
def iterate (cfg : Cfg) (orc : Oracles) (task : Task) (st : LoopState)
    (step : Nat) : List Event × (Final ⊕ LoopState) :=
  if st.apiFails ≥ 3 then
    ([.finalize step .guardGate (some "error_internal") (str "System unavailable.") []],
     .inl ⟨some "error_internal", str "System unavailable.", []⟩)
  else
    let mem1 := compress_memory st.memory
    let reasonEv := Event.reason mem1 st.scratch
    match orc.llm st.llmCalls with
    | none =>
      let lf := st.llmFails + 1
      if lf ≥ 3 then
        ([reasonEv, .llmFail,
          .finalize step .llmErr (some "error_internal") (str "System error.") []],
         .inl ⟨some "error_internal", str "System error.", []⟩)
      else
        ([reasonEv, .llmFail, .inject correctiveMsg],
         .inr { st with memory := mem1, llmCalls := st.llmCalls + 1, llmFails := lf })
    | some ns =>
      let st2 : LoopState :=
        { st with memory := mergeMemory mem1 ns.memory,
                  scratch := updateScratch st.scratch ns.scratch,
                  allIds := st.allIds ++ extract_ids (ns.memory ++ ns.scratch),
                  llmCalls := st.llmCalls + 1, llmFails := 0 }
      let fn1 := clampLimit ns.function
      match hallucinatedField fn1 with
      | some v => ([reasonEv, .inject (hallMsg v)], .inr st2)
      | none =>
        let fn2 := enrich task.currentUser fn1
        if fn2.kind = .provideAgentResponse then
          let r := handleFinal cfg task st2 step fn2
          (reasonEv :: r.1, r.2)
        else
          let st3 := { st2 with apiCalls := st2.apiCalls + 1 }
          match orc.api st2.apiCalls with
          | .apiErr msg =>
            let r := handleApiErr st3 step fn2 msg
            (reasonEv :: .dispatch step fn2 :: r.1, r.2)
          | .fault msg =>
            ([reasonEv, .dispatch step fn2, .inject (toolErrGenMsg msg)],
             .inr { st3 with memory := st3.memory ++ errMemFragGen msg })
          | .ok res =>
            let r := successPhase task st3 ns fn2 res step
            (reasonEv :: .dispatch step fn2 :: r.1, r.2)

/-- Loop exhaustion (lines 737-744). -/
def exhaustedResult (cfg : Cfg) (task : Task) (st : LoopState) :
    List Event × Final :=
  let tl := strLower task.text
  if st.systemBroken then
    ([.finalize cfg.maxSteps .exhausted (some "error_internal") (str "System error.") []],
     ⟨some "error_internal", str "System error.", []⟩)
  else if ["status", "pause", "archive", "resume", "switch"].any
      (fun w => hasSub w tl) then
    ([.finalize cfg.maxSteps .exhausted (some "denied_security")
        (str "Project not found or not authorized.") []],
     ⟨some "denied_security", str "Project not found or not authorized.", []⟩)
  else
    let lk := build_links (takeLast 3 st.allIds) false
    ([.finalize cfg.maxSteps .exhausted (some "error_internal")
        (str "Could not complete.") lk],
     ⟨some "error_internal", str "Could not complete.", lk⟩)

/-- `for step in range(cfg.MAX_STEPS)`: recursion on the remaining budget;
    the current step index is `maxSteps - remaining`. -/
def runLoop (cfg : Cfg) (orc : Oracles) (task : Task) :
    Nat → LoopState → List Event × Final
  | 0, st => exhaustedResult cfg task st
  | n + 1, st =>
    match iterate cfg orc task st (cfg.maxSteps - (n + 1)) with
    | (evs, .inl fin) => (evs, fin)
    | (evs, .inr st') =>
      let r := runLoop cfg orc task n st'
      (evs ++ r.1, r.2)

/-! ## The pre-loop pattern guard (lines 355-436) -/

/-- The guest-guard date words (line 358). -/
def DATE_WORDS_GUARD : List String :=
  ["date", "today", "current date", "what day", "what time"]

/-- The guest-shortcut date words (line 374) — note `"what time"` is
    missing here. -/
def DATE_WORDS_SHORTCUT : List String :=
  ["date", "today", "current date", "what day"]

/-- `is_date_query` (line 358). -/
def is_date_query (low : Str) : Bool :=
  DATE_WORDS_GUARD.any (fun w => hasSub w low)

/-- The required branding suffix of the guest date answer (line 375). -/
def BRANDING : String := " — AI Excellence Group INTERNATIONAL"

/-- The pre-loop pattern guard: `some (outcome, message)` short-circuits the
    task before the loop (guest restriction, guest date shortcut, deny,
    unsupported, vague), `none` continues into the agent loop. -/
def preGuard (task : Task) : Option (String × Str) :=
  let low := strLower task.text
  if task.isPublic ∧ is_date_query low = false then
    some ("denied_security", str "Access denied.")
  else if task.isPublic ∧ DATE_WORDS_SHORTCUT.any (fun w => hasSub w low) = true then
    some ("ok_answer", task.today ++ str BRANDING)
  else
    match match_pattern task.text DENY_PATTERNS with
    | some msg => some ("denied_security", str msg)
    | none =>
      match match_pattern task.text UNSUPPORTED_PATTERNS with
      | some msg => some ("none_unsupported", str msg)
      | none =>
        if VAGUE_PATTERNS.any (fun p => search p low) then
          some ("none_clarification_needed",
                str "Could you clarify which project you\x27re referring to?")
        else none

/-- The loop's initial state (lines 445-450). -/
def initState : LoopState :=
  { memory := [], scratch := [], allIds := [], apiFails := 0, llmFails := 0,
    blockCount := 0, systemBroken := false, callHistory := [], llmCalls := 0,
    apiCalls := 0 }

/-- `run_task`: pattern guard, then the agent loop. -/
def runTask (cfg : Cfg) (orc : Oracles) (task : Task) : List Event × Final :=
  match preGuard task with
  | some om => ([.finalize 0 .guardShort (some om.1) om.2 []], ⟨some om.1, om.2, []⟩)
  | none => runLoop cfg orc task cfg.maxSteps initState

/-! ## Trace scanning infrastructure

    Temporal properties of a run are stated as a left-to-right scan over the
    event trace: `upd` threads a scan state, `chk` checks each event against
    the state accumulated so far. -/

def scanOk {σ : Type} (upd : σ → Event → σ) (chk : σ → Event → Bool) :
    σ → List Event → Bool
  | _, [] => true
  | s, e :: r => chk s e && scanOk upd chk (upd s e) r

theorem scanOk_nil {σ : Type} (upd : σ → Event → σ) (chk) (s : σ) :
    scanOk upd chk s [] = true := rfl

theorem scanOk_cons {σ : Type} (upd : σ → Event → σ) (chk) (s : σ) (e r) :
    scanOk upd chk s (e :: r) =
      (chk s e && scanOk upd chk (upd s e) r) := rfl

theorem scanOk_append {σ : Type} (upd : σ → Event → σ) (chk) :
    ∀ (xs ys : List Event) (s : σ),
      scanOk upd chk s (xs ++ ys) =
        (scanOk upd chk s xs && scanOk upd chk (xs.foldl upd s) ys) := by
  intro xs
  induction xs with
  | nil => intro ys s; simp [scanOk]
  | cons e r ih =>
    intro ys s
    simp [scanOk, ih, Bool.and_assoc]

/-- Master induction principle: if every iteration's event block passes the
    scan and continuing preserves the invariant (with the scan state folded
    through the block), and exhaustion passes the scan, then the whole run's
    trace passes the scan. -/
theorem runLoop_scan {σ : Type} (cfg : Cfg) (orc : Oracles) (task : Task)
    (upd : σ → Event → σ) (chk : σ → Event → Bool)
    (Inv : LoopState → σ → Prop)
    (hIter : ∀ st step s, Inv st s →
      scanOk upd chk s (iterate cfg orc task st step).1 = true ∧
      ∀ st', (iterate cfg orc task st step).2 = Sum.inr st' →
        Inv st' ((iterate cfg orc task st step).1.foldl upd s))
    (hExh : ∀ st s, Inv st s →
      scanOk upd chk s (exhaustedResult cfg task st).1 = true) :
    ∀ (n : Nat) (st : LoopState) (s : σ), Inv st s →
      scanOk upd chk s (runLoop cfg orc task n st).1 = true := by
  intro n
  induction n with
  | zero => intro st s h; exact hExh st s h
  | succ n ih =>
    intro st s h
    obtain ⟨h1, h2⟩ := hIter st (cfg.maxSteps - (n + 1)) s h
    show scanOk upd chk s (runLoop cfg orc task (n + 1) st).1 = true
    unfold runLoop
    cases hit : iterate cfg orc task st (cfg.maxSteps - (n + 1)) with
    | mk evs r =>
      rw [hit] at h1 h2
      cases r with
      | inl fin => simpa using h1
      | inr st' =>
        simp only []
        rw [scanOk_append]
        have h3 := ih st' ((evs.foldl upd s)) (h2 st' rfl)
        simp [h1, h3]

/-- Stateless scan: every event satisfies `P`. -/
theorem scanOk_const {P : Event → Bool} :
    ∀ (evs : List Event), scanOk (fun (s : Unit) _ => s) (fun _ e => P e) () evs
      = evs.all P := by
  intro evs
  induction evs with
  | nil => rfl
  | cons e r ih => simp [scanOk, ih]

/-- Specialization of `runLoop_scan` to a stateless event predicate. -/
theorem runLoop_all (cfg : Cfg) (orc : Oracles) (task : Task)
    (P : Event → Bool) (Inv : LoopState → Prop)
    (hIter : ∀ st step, Inv st →
      (iterate cfg orc task st step).1.all P = true ∧
      ∀ st', (iterate cfg orc task st step).2 = Sum.inr st' → Inv st')
    (hExh : ∀ st, Inv st → (exhaustedResult cfg task st).1.all P = true) :
    ∀ (n : Nat) (st : LoopState), Inv st →
      (runLoop cfg orc task n st).1.all P = true := by
  intro n st h
  have := runLoop_scan cfg orc task (fun (s : Unit) _ => s) (fun _ e => P e)
    (fun st _ => Inv st)
    (by
      intro st step s hs
      refine ⟨?_, fun st' h' => (hIter st step hs).2 st' h'⟩
      rw [scanOk_const]
      exact (hIter st step hs).1)
    (by intro st s hs; rw [scanOk_const]; exact hExh st hs)
    n st () h
  rwa [scanOk_const] at this

/-! ### Generic event-shape lemmas for the loop phases: `handleFinal`,
    `handleApiErr` and `successPhase` emit no `dispatch` events, so any
    event predicate holding on `inject`/`finalize`/`apiError` events holds
    on their whole block. -/

theorem handleFinal_events (cfg : Cfg) (task : Task) (st : LoopState)
    (step : Nat) (a0 : Action) (P : Event → Bool)
    (hInj : ∀ c, P (.inject c) = true)
    (hFin : ∀ k v o m l, P (.finalize k v o m l) = true) :
    (handleFinal cfg task st step a0).1.all P = true := by
  unfold handleFinal submitResponse
  simp only []
  repeat' split
  all_goals simp [hInj, hFin]

theorem handleApiErr_events (st : LoopState) (step : Nat) (fn : Action)
    (err : Str) (P : Event → Bool)
    (hInj : ∀ c, P (.inject c) = true)
    (hErr : ∀ cls m, P (.apiError cls m) = true)
    (hFin : ∀ k v o m l, P (.finalize k v o m l) = true) :
    (handleApiErr st step fn err).1.all P = true := by
  unfold handleApiErr
  simp only []
  repeat' split
  all_goals simp [hInj, hErr, hFin]

theorem successPhase_events (task : Task) (st : LoopState) (ns : NextStep)
    (fn : Action) (res : ApiResult) (step : Nat) (P : Event → Bool)
    (hInj : ∀ c, P (.inject c) = true)
    (hFin : ∀ k v o m l, P (.finalize k v o m l) = true) :
    (successPhase task st ns fn res step).1.all P = true := by
  unfold successPhase
  simp only []
  repeat' split
  all_goals simp [hInj, hFin]

/-! ## C7: pagination limits at dispatch time -/

/-- The dispatched pagination limit is at most 5 (when the action carries
    one). -/
def limOk (a : Action) : Bool :=
  match a.limit with
  | some v => decide (v ≤ 5)
  | none => true

/-- Event form: every domain dispatch carries a compliant limit. -/
def limEv : Event → Bool
  | .dispatch _ a => limOk a
  | _ => true

theorem limOk_clampLimit (a : Action) : limOk (clampLimit a) = true := by
  unfold clampLimit limOk
  cases h : a.limit with
  | none => simp [h]
  | some v =>
    by_cases hv : v ≠ 0 ∧ v > 5
    · simp [hv]
    · simp only [hv, if_false, h, decide_eq_true_eq]
      omega

theorem limit_enrichLogTime (cu : Option Str) (a : Action) :
    (enrichLogTime cu a).limit = a.limit := by
  unfold enrichLogTime; split <;> rfl

theorem limit_enrichSearchEmp (a : Action) :
    (enrichSearchEmp a).limit = a.limit := by
  unfold enrichSearchEmp; split <;> rfl

theorem limOk_rebuildUpdateEmployee (cu : Option Str) (a : Action)
    (h : limOk a = true) : limOk (rebuildUpdateEmployee cu a) = true := by
  unfold rebuildUpdateEmployee
  split
  · rfl
  · exact h

theorem limOk_enrich (cu : Option Str) (a : Action) (h : limOk a = true) :
    limOk (enrich cu a) = true := by
  unfold enrich
  apply limOk_rebuildUpdateEmployee
  unfold limOk at h ⊢
  rw [limit_enrichSearchEmp, limit_enrichLogTime]
  exact h

theorem limOk_enrich_clamp (cu : Option Str) (a : Action) :
    limOk (enrich cu (clampLimit a)) = true :=
  limOk_enrich _ _ (limOk_clampLimit _)

theorem runLoop_limits (cfg : Cfg) (orc : Oracles) (task : Task) :
    ∀ (n : Nat) (st : LoopState),
      (runLoop cfg orc task n st).1.all limEv = true := by
  intro n st
  refine runLoop_all cfg orc task limEv (fun _ => True) ?_ ?_ n st trivial
  · intro st step _
    refine ⟨?_, fun _ _ => trivial⟩
    unfold iterate
    simp only []
    repeat' split
    all_goals simp [limEv, limOk_enrich_clamp, handleFinal_events,
      handleApiErr_events, successPhase_events]
  · intro st _
    unfold exhaustedResult
    simp only []
    repeat' split
    all_goals simp [limEv]

/-! ## Shared concrete fixtures for witnesses and counterexamples -/

/-- A search-projects request with a chosen limit. -/
def demoSearch (n : Int) : Action :=
  { blankAction .searchProjects with query := some (str "cv"), limit := some n }

/-- A reasoning step proposing `a`, optionally signalling `done`. -/
def demoNS (a : Action) (d : Bool) : NextStep :=
  ⟨[], [], [], [], [], [], d, false, false, a⟩

/-- Oracles whose reasoning engine always fails to parse. -/
def demoOrcFail : Oracles := ⟨fun _ => none, fun _ => .fault []⟩

/-- A plain non-guest task. -/
def demoTask : Task := ⟨str "hello", false, some (str "ana_kovac"), str "2024-01-01"⟩

/-- C7: For every action dispatched to the domain API that carries a
    pagination limit parameter, the dispatched value is at most 5: any
    requested limit strictly greater than 5 is silently replaced by 5 before
    dispatch, and limits of 5 or below are passed through unchanged. -/
theorem C7_limit_clamping :
    (∀ (a : Action) (v : Int), a.limit = some v → 5 < v →
       (clampLimit a).limit = some 5) ∧
    (∀ (a : Action) (v : Int), a.limit = some v → v ≤ 5 → clampLimit a = a) ∧
    (∀ (cfg : Cfg) (orc : Oracles) (task : Task),
       (runTask cfg orc task).1.all limEv = true) := by
  refine ⟨?_, ?_, ?_⟩
  · intro a v h hv
    have hc : v ≠ 0 ∧ v > 5 := by constructor <;> omega
    simp [clampLimit, h, hc]
  · intro a v h hv
    have hc : ¬ (v ≠ 0 ∧ v > 5) := by omega
    simp [clampLimit, h, hc]
  · intro cfg orc task
    unfold runTask
    cases preGuard task with
    | some om => simp [limEv]
    | none => exact runLoop_limits cfg orc task cfg.maxSteps initState

theorem C7_limit_clamping_witness :
    (clampLimit (demoSearch 9)).limit = some 5 ∧
    clampLimit (demoSearch 3) = demoSearch 3 ∧
    (runTask defaultCfg demoOrcFail demoTask).1.all limEv = true :=
  ⟨C7_limit_clamping.1 (demoSearch 9) 9 rfl (by decide),
   C7_limit_clamping.2.1 (demoSearch 3) 3 rfl (by decide),
   C7_limit_clamping.2.2 defaultCfg demoOrcFail demoTask⟩

/-! ## Continue-state characterizations of the loop phases -/

theorem handleFinal_inr (cfg : Cfg) (task : Task) (st : LoopState)
    (step : Nat) (a0 : Action) (st' : LoopState)
    (h : (handleFinal cfg task st step a0).2 = Sum.inr st') :
    st' = { st with blockCount := st.blockCount + 1 } := by
  unfold handleFinal submitResponse at h
  simp only [] at h
  repeat' split at h
  all_goals simp_all

theorem handleApiErr_inr (st : LoopState) (step : Nat) (fn : Action)
    (err : Str) (st' : LoopState)
    (h : (handleApiErr st step fn err).2 = Sum.inr st') :
    st' = { st with memory := st.memory ++ errMemFrag (classify_error err) err } := by
  unfold handleApiErr at h
  simp only [] at h
  repeat' split at h
  all_goals simp_all

theorem successPhase_inr (task : Task) (st : LoopState) (ns : NextStep)
    (fn : Action) (res : ApiResult) (step : Nat) (st' : LoopState)
    (h : (successPhase task st ns fn res step).2 = Sum.inr st') :
    st'.apiFails = st.apiFails ∧ st'.systemBroken = st.systemBroken ∧
    st'.llmFails = st.llmFails ∧ st'.llmCalls = st.llmCalls ∧
    st'.blockCount = st.blockCount ∧ st'.apiCalls = st.apiCalls ∧
    st'.callHistory = st.callHistory ++
      [(className fn.kind,
        (strip (fn.query.getD (fn.id.getD (fn.employee.getD [])))).take 40)] := by
  unfold successPhase at h
  simp only [] at h
  by_cases hd : ns.done = true
  · rw [if_pos hd] at h
    simp at h
  · rw [if_neg hd] at h
    simp only [Sum.inr.injEq] at h
    subst h
    simp

/-! ## C2: hallucinated identifiers are never dispatched -/

/-- The four probed identifier attributes carry no hallucinated value
    (Python truthiness: `if val and _looks_hallucinated(str(val))`). -/
def idFieldsClean (a : Action) : Bool :=
  [a.id, a.employee, a.project, a.customer].all (fun v =>
    match v with
    | some s => !(s ≠ [] && looks_hallucinated s)
    | none => true)

/-- Event form: every domain dispatch has clean identifier attributes. -/
def cleanEv : Event → Bool
  | .dispatch _ a => idFieldsClean a
  | _ => true

theorem idFieldsClean_of_hallucinatedField_none (a : Action)
    (h : hallucinatedField a = none) : idFieldsClean a = true := by
  unfold hallucinatedField at h
  rw [List.head?_eq_none_iff, List.filterMap_eq_nil_iff] at h
  unfold idFieldsClean
  rw [List.all_eq_true]
  intro v hv
  have := h v hv
  cases v with
  | none => rfl
  | some s =>
    simp only [] at this ⊢
    cases hab : (decide (s ≠ []) && looks_hallucinated s) with
    | true => rw [if_pos hab] at this; cases this
    | false => simp [hab]

theorem idFieldsClean_enrichLogTime (cu : Option Str) (a : Action) :
    idFieldsClean (enrichLogTime cu a) = idFieldsClean a := by
  unfold enrichLogTime
  split <;> rfl

theorem idFieldsClean_enrichSearchEmp (a : Action) :
    idFieldsClean (enrichSearchEmp a) = idFieldsClean a := by
  unfold enrichSearchEmp
  split <;> rfl

theorem idFieldsClean_rebuildUpdateEmployee (cu : Option Str) (a : Action)
    (h : idFieldsClean a = true) :
    idFieldsClean (rebuildUpdateEmployee cu a) = true := by
  unfold rebuildUpdateEmployee
  split
  · simp only [idFieldsClean, blankAction] at h ⊢
    simp_all
  · exact h

/-- After the hallucination probe passes, enrichment cannot introduce a
    hallucinated identifier. -/
theorem idFieldsClean_enrich_clamp (cu : Option Str) (f : Action)
    (h : hallucinatedField (clampLimit f) = none) :
    idFieldsClean (enrich cu (clampLimit f)) = true := by
  unfold enrich
  apply idFieldsClean_rebuildUpdateEmployee
  rw [idFieldsClean_enrichSearchEmp, idFieldsClean_enrichLogTime]
  exact idFieldsClean_of_hallucinatedField_none _ h

theorem runLoop_clean (cfg : Cfg) (orc : Oracles) (task : Task) :
    ∀ (n : Nat) (st : LoopState),
      (runLoop cfg orc task n st).1.all cleanEv = true := by
  intro n st
  refine runLoop_all cfg orc task cleanEv (fun _ => True) ?_ ?_ n st trivial
  · intro st step _
    refine ⟨?_, fun _ _ => trivial⟩
    unfold iterate
    simp only []
    repeat' split
    all_goals simp_all [cleanEv, idFieldsClean_enrich_clamp, handleFinal_events,
      handleApiErr_events, successPhase_events]
  · intro st _
    unfold exhaustedResult
    simp only []
    repeat' split
    all_goals simp [cleanEv]

/-- C2: an action whose entity-identifier parameter (id / employee /
    project / customer) matches the fabricated-ID heuristic is never
    dispatched to the domain API; instead a corrective note demanding an
    API-returned identifier is injected and the loop moves on to the next
    reasoning step.  Part 1: every `dispatch` event of every run carries
    clean identifier attributes.  Part 2: an iteration whose proposed
    action probes hallucinated emits exactly the reasoning event and the
    corrective note — no dispatch, no termination — and continues. -/
theorem C2_hallucinated_ids :
    (∀ (cfg : Cfg) (orc : Oracles) (task : Task),
       (runTask cfg orc task).1.all cleanEv = true) ∧
    (∀ (cfg : Cfg) (orc : Oracles) (task : Task) (st : LoopState) (step : Nat)
       (ns : NextStep) (v : Str),
       st.apiFails < 3 → orc.llm st.llmCalls = some ns →
       hallucinatedField (clampLimit ns.function) = some v →
       iterate cfg orc task st step =
         ([.reason (compress_memory st.memory) st.scratch, .inject (hallMsg v)],
          Sum.inr { st with memory := mergeMemory (compress_memory st.memory) ns.memory,
                            scratch := updateScratch st.scratch ns.scratch,
                            allIds := st.allIds ++ extract_ids (ns.memory ++ ns.scratch),
                            llmCalls := st.llmCalls + 1, llmFails := 0 })) := by
  constructor
  · intro cfg orc task
    unfold runTask
    cases preGuard task with
    | some om => simp [cleanEv]
    | none => exact runLoop_clean cfg orc task cfg.maxSteps initState
  · intro cfg orc task st step ns v hgate horc hhall
    unfold iterate
    rw [if_neg (by omega)]
    simp only [horc, hhall]

/-- A proposed lookup carrying the fabricated identifier `emp_1`. -/
def demoHallAction : Action :=
  { blankAction .getEmployee with employee := some (str "emp_1") }

def demoHallNS : NextStep := demoNS demoHallAction false

/-- Oracles whose reasoning engine always proposes the fabricated lookup. -/
def demoOrcHall : Oracles := ⟨fun _ => some demoHallNS, fun _ => .fault []⟩

/-- The expected result of the rejected iteration. -/
def demoHallResult : List Event × (Final ⊕ LoopState) :=
  let st' : LoopState :=
    { initState with
        memory := mergeMemory (compress_memory initState.memory) demoHallNS.memory,
        scratch := updateScratch initState.scratch demoHallNS.scratch,
        allIds := initState.allIds ++ extract_ids (demoHallNS.memory ++ demoHallNS.scratch),
        llmCalls := initState.llmCalls + 1, llmFails := 0 }
  ([.reason (compress_memory initState.memory) initState.scratch,
    .inject (hallMsg (str "emp_1"))], Sum.inr st')

theorem C2_hallucinated_ids_witness :
    ((runTask defaultCfg demoOrcFail demoTask).1.all cleanEv = true) ∧
    initState.apiFails < 3 ∧
    demoOrcHall.llm initState.llmCalls = some demoHallNS ∧
    hallucinatedField (clampLimit demoHallNS.function) = some (str "emp_1") ∧
    iterate defaultCfg demoOrcHall demoTask initState 0 = demoHallResult :=
  ⟨C2_hallucinated_ids.1 defaultCfg demoOrcFail demoTask,
   by decide, rfl, by decide,
   C2_hallucinated_ids.2 defaultCfg demoOrcHall demoTask initState 0 demoHallNS
     (str "emp_1") (by decide) rfl (by decide)⟩

/-! ## C10: the domain-API system-failure counter and its gate -/

/-- Event form: the loop-top gate (`api_fails >= 3` at line 465) never
    fires, i.e. no terminal response comes from it. -/
def noGateEv : Event → Bool
  | .finalize _ .guardGate _ _ _ => false
  | _ => true

theorem handleFinal_noGate (cfg : Cfg) (task : Task) (st : LoopState)
    (step : Nat) (a0 : Action) :
    (handleFinal cfg task st step a0).1.all noGateEv = true := by
  unfold handleFinal submitResponse
  simp only []
  repeat' split
  all_goals simp [noGateEv]

theorem handleApiErr_noGate (st : LoopState) (step : Nat) (fn : Action)
    (err : Str) : (handleApiErr st step fn err).1.all noGateEv = true := by
  unfold handleApiErr
  simp only []
  repeat' split
  all_goals simp [noGateEv]

theorem successPhase_noGate (task : Task) (st : LoopState) (ns : NextStep)
    (fn : Action) (res : ApiResult) (step : Nat) :
    (successPhase task st ns fn res step).1.all noGateEv = true := by
  unfold successPhase
  simp only []
  repeat' split
  all_goals simp [noGateEv]

/-- The loop's only increment of `api_fails` (line 683) is immediately
    followed by a terminal response, so no continuing iteration ever
    changes the counter. -/
theorem iterate_continue_apiFails (cfg : Cfg) (orc : Oracles) (task : Task)
    (st : LoopState) (step : Nat) (st' : LoopState)
    (h : (iterate cfg orc task st step).2 = Sum.inr st') :
    st'.apiFails = st.apiFails := by
  unfold iterate at h
  by_cases hg : st.apiFails ≥ 3
  · rw [if_pos hg] at h
    simp at h
  · rw [if_neg hg] at h
    simp only [] at h
    cases horc : orc.llm st.llmCalls with
    | none =>
      rw [horc] at h
      simp only [] at h
      split at h
      · simp at h
      · simp only [Sum.inr.injEq] at h
        subst h
        rfl
    | some ns =>
      rw [horc] at h
      simp only [] at h
      cases hh : hallucinatedField (clampLimit ns.function) with
      | some v =>
        rw [hh] at h
        simp only [Sum.inr.injEq] at h
        subst h
        rfl
      | none =>
        rw [hh] at h
        simp only [] at h
        split at h
        · simp only [] at h
          have := handleFinal_inr _ _ _ _ _ _ h
          subst this
          rfl
        · cases hapi : orc.api st.apiCalls with
          | apiErr msg =>
            rw [hapi] at h
            simp only [] at h
            have := handleApiErr_inr _ _ _ _ _ h
            subst this
            rfl
          | fault msg =>
            rw [hapi] at h
            simp only [Sum.inr.injEq] at h
            subst h
            rfl
          | ok res =>
            rw [hapi] at h
            simp only [] at h
            exact (successPhase_inr _ _ _ _ _ _ _ h).1

theorem runLoop_noGate (cfg : Cfg) (orc : Oracles) (task : Task) :
    ∀ (n : Nat) (st : LoopState), st.apiFails = 0 →
      (runLoop cfg orc task n st).1.all noGateEv = true := by
  intro n st h0
  refine runLoop_all cfg orc task noGateEv (fun st => st.apiFails = 0) ?_ ?_ n st h0
  · intro st step hst
    refine ⟨?_, ?_⟩
    · unfold iterate
      simp only []
      repeat' split
      all_goals simp_all [noGateEv, handleFinal_noGate, handleApiErr_noGate,
        successPhase_noGate]
    · intro st' h
      rw [iterate_continue_apiFails cfg orc task st step st' h]
      exact hst
  · intro st _
    unfold exhaustedResult
    simp only []
    repeat' split
    all_goals simp [noGateEv]

/-- C10: In every reachable state of the agent loop the domain-API
    system-failure counter is unchanged by any continuing iteration (the
    only increment, on a system-classified error, terminates the task in
    the same iteration), so starting from the initial counter 0 the guard
    at the top of each iteration that would terminate with error_internal
    when the counter reaches 3 is never taken: no run's trace contains a
    gate-produced terminal event. -/
theorem C10_gate_unreachable :
    (∀ (cfg : Cfg) (orc : Oracles) (task : Task) (st : LoopState) (step : Nat)
       (st' : LoopState),
       (iterate cfg orc task st step).2 = Sum.inr st' →
       st'.apiFails = st.apiFails) ∧
    (∀ (cfg : Cfg) (orc : Oracles) (task : Task),
       (runTask cfg orc task).1.all noGateEv = true) := by
  refine ⟨iterate_continue_apiFails, ?_⟩
  intro cfg orc task
  unfold runTask
  cases preGuard task with
  | some om => simp [noGateEv]
  | none => exact runLoop_noGate cfg orc task cfg.maxSteps initState rfl

/-- The state after one parse-failure iteration from the initial state. -/
def demoFailState : LoopState :=
  { initState with memory := compress_memory initState.memory,
                   llmCalls := 1, llmFails := 1 }

theorem C10_gate_unreachable_witness :
    (iterate defaultCfg demoOrcFail demoTask initState 0).2 = Sum.inr demoFailState ∧
    demoFailState.apiFails = initState.apiFails ∧
    (runTask defaultCfg demoOrcFail demoTask).1.all noGateEv = true :=
  ⟨by decide,
   C10_gate_unreachable.1 defaultCfg demoOrcFail demoTask initState 0 demoFailState (by decide),
   C10_gate_unreachable.2 defaultCfg demoOrcFail demoTask⟩

/-! ## C3: denylist patterns -/

/-- A guest task whose instruction matches the data-wipe deny pattern and
    also contains a date word. -/
def c3GuestTask : Task := ⟨str "wipe my data today", true, none, str "2024-01-01"⟩

/-- C3 counterexample: the claim quantifies over every task, but the guest
    guard runs before the denylist, so a guest task matching a deny pattern
    can terminate ok_answer (branded date) instead of denied_security. -/
theorem C3_denylist_counterexample :
    match_pattern c3GuestTask.text DENY_PATTERNS
      = some "Data wipe requires HR approval." ∧
    (runTask defaultCfg demoOrcFail c3GuestTask).2.outcome = some "ok_answer" := by
  constructor
  · decide
  · decide

/-- C3 (amended): for every non-guest task whose instruction matches a
    denylist pattern, the run is exactly one guard short-circuit: outcome
    denied_security with the first matching pattern's canned message, no
    domain dispatch and no reasoning call (the trace is the single terminal
    event). -/
theorem C3_denylist (cfg : Cfg) (orc : Oracles) (task : Task) (msg : String)
    (hpub : task.isPublic = false)
    (hmatch : match_pattern task.text DENY_PATTERNS = some msg) :
    runTask cfg orc task =
      ([.finalize 0 .guardShort (some "denied_security") (str msg) []],
       ⟨some "denied_security", str msg, []⟩) := by
  unfold runTask preGuard
  rw [if_neg (by simp [hpub]), if_neg (by simp [hpub]), hmatch]

/-- The spec scenario: a signed-in user asking to wipe their data. -/
def c3WipeTask : Task := ⟨str "wipe my data", false, some (str "u"), str "2024-01-01"⟩

theorem C3_denylist_witness :
    c3WipeTask.isPublic = false ∧
    match_pattern c3WipeTask.text DENY_PATTERNS
      = some "Data wipe requires HR approval." ∧
    runTask defaultCfg demoOrcFail c3WipeTask =
      ([.finalize 0 .guardShort (some "denied_security")
          (str "Data wipe requires HR approval.") []],
       ⟨some "denied_security", str "Data wipe requires HR approval.", []⟩) :=
  ⟨rfl, by decide,
   C3_denylist defaultCfg demoOrcFail c3WipeTask
     "Data wipe requires HR approval." rfl (by decide)⟩

/-! ## C4: guest date/time queries -/

/-- A guest task recognized as a date/time query only through
    `"what time"`. -/
def c4TimeTask : Task := ⟨str "what time is it", true, none, str "2024-01-01"⟩

/-- C4 counterexample: `"what time"` is in the guest-guard word list but
    not in the shortcut word list (line 374), so a guest task recognized as
    a date/time query can fall through into the agent loop and terminate
    error_internal (here: with a reasoning engine that always fails), not
    ok_answer with the branded date. -/
theorem C4_guest_date_counterexample :
    is_date_query (strLower c4TimeTask.text) = true ∧
    c4TimeTask.isPublic = true ∧
    (runTask defaultCfg demoOrcFail c4TimeTask).2.outcome
      = some "error_internal" := by
  refine ⟨by decide, rfl, by decide⟩

/-- C4 (amended): for every guest task whose lowered instruction contains
    one of the shortcut date words (`date`, `today`, `current date`,
    `what day`), the run is exactly one guard short-circuit: ok_answer whose
    message is the as-of date followed by the branding suffix, with no
    domain dispatch (the trace is the single terminal event). -/
theorem C4_guest_date (cfg : Cfg) (orc : Oracles) (task : Task)
    (hpub : task.isPublic = true)
    (hdate : DATE_WORDS_SHORTCUT.any
      (fun w => hasSub w (strLower task.text)) = true) :
    runTask cfg orc task =
      ([.finalize 0 .guardShort (some "ok_answer")
          (task.today ++ str BRANDING) []],
       ⟨some "ok_answer", task.today ++ str BRANDING, []⟩) := by
  have hg : is_date_query (strLower task.text) = true := by
    unfold is_date_query DATE_WORDS_GUARD
    unfold DATE_WORDS_SHORTCUT at hdate
    simp only [List.any_cons, List.any_nil, Bool.or_eq_true] at hdate ⊢
    tauto
  unfold runTask preGuard
  rw [if_neg (by simp [hpub, hg]), if_pos (by simp [hpub, hdate])]

/-- A guest date query (the spec scenario). -/
def c4DateTask : Task :=
  ⟨str "what\x27s today\x27s date?", true, none, str "2024-01-01"⟩

theorem C4_guest_date_witness :
    c4DateTask.isPublic = true ∧
    DATE_WORDS_SHORTCUT.any
      (fun w => hasSub w (strLower c4DateTask.text)) = true ∧
    runTask defaultCfg demoOrcFail c4DateTask =
      ([.finalize 0 .guardShort (some "ok_answer")
          (c4DateTask.today ++ str BRANDING) []],
       ⟨some "ok_answer", c4DateTask.today ++ str BRANDING, []⟩) :=
  ⟨rfl, by decide, C4_guest_date defaultCfg demoOrcFail c4DateTask rfl (by decide)⟩

/-! ## C5: three consecutive reasoning parse failures -/

theorem runLoop_succ_continue (cfg : Cfg) (orc : Oracles) (task : Task)
    (n : Nat) (st : LoopState) (evs : List Event) (st' : LoopState)
    (h : iterate cfg orc task st (cfg.maxSteps - (n + 1)) = (evs, .inr st')) :
    runLoop cfg orc task (n + 1) st =
      (evs ++ (runLoop cfg orc task n st').1,
       (runLoop cfg orc task n st').2) := by
  conv_lhs => rw [runLoop]
  rw [h]

theorem runLoop_succ_term (cfg : Cfg) (orc : Oracles) (task : Task)
    (n : Nat) (st : LoopState) (evs : List Event) (fin : Final)
    (h : iterate cfg orc task st (cfg.maxSteps - (n + 1)) = (evs, .inl fin)) :
    runLoop cfg orc task (n + 1) st = (evs, fin) := by
  conv_lhs => rw [runLoop]
  rw [h]

/-- A reasoning transport/parse failure below the threshold: corrective
    instruction injected, same iteration retried (continue), no dispatch. -/
theorem iterate_llmFail_continue (cfg : Cfg) (orc : Oracles) (task : Task)
    (st : LoopState) (step : Nat)
    (hg : st.apiFails < 3) (ho : orc.llm st.llmCalls = none)
    (hf : st.llmFails + 1 < 3) :
    iterate cfg orc task st step =
      ([.reason (compress_memory st.memory) st.scratch, .llmFail,
        .inject correctiveMsg],
       .inr { st with memory := compress_memory st.memory,
                      llmCalls := st.llmCalls + 1,
                      llmFails := st.llmFails + 1 }) := by
  unfold iterate
  rw [if_neg (by omega)]
  simp only [ho]
  rw [if_neg (by omega)]

/-- The third consecutive failure terminates with error_internal. -/
theorem iterate_llmFail_term (cfg : Cfg) (orc : Oracles) (task : Task)
    (st : LoopState) (step : Nat)
    (hg : st.apiFails < 3) (ho : orc.llm st.llmCalls = none)
    (hf : 3 ≤ st.llmFails + 1) :
    iterate cfg orc task st step =
      ([.reason (compress_memory st.memory) st.scratch, .llmFail,
        .finalize step .llmErr (some "error_internal") (str "System error.") []],
       .inl ⟨some "error_internal", str "System error.", []⟩) := by
  unfold iterate
  rw [if_neg (by omega)]
  simp only [ho]
  rw [if_pos (by omega)]

/-- C5: if the first three reasoning calls fail to parse, the task
    terminates error_internal after exactly three reasoning attempts
    (no 4th call), with a corrective schema instruction injected after each
    failure below the threshold, and zero domain dispatches — the trace is
    exactly these nine events. -/
theorem C5_parse_failures (cfg : Cfg) (orc : Oracles) (task : Task)
    (hms : 3 ≤ cfg.maxSteps)
    (hguard : preGuard task = none)
    (h0 : orc.llm 0 = none) (h1 : orc.llm 1 = none) (h2 : orc.llm 2 = none) :
    runTask cfg orc task =
      ([.reason [] [], .llmFail, .inject correctiveMsg,
        .reason [] [], .llmFail, .inject correctiveMsg,
        .reason [] [], .llmFail,
        .finalize 2 .llmErr (some "error_internal") (str "System error.") []],
       ⟨some "error_internal", str "System error.", []⟩) := by
  unfold runTask
  rw [hguard]
  obtain ⟨k, hk⟩ : ∃ k, cfg.maxSteps = k + 3 := ⟨cfg.maxSteps - 3, by omega⟩
  rw [hk]
  rw [runLoop_succ_continue cfg orc task (k + 2) initState _ _
    (iterate_llmFail_continue cfg orc task initState _ (by decide) (by exact h0)
      (by decide))]
  rw [runLoop_succ_continue cfg orc task (k + 1) _ _ _
    (iterate_llmFail_continue cfg orc task _ _ (by decide) (by exact h1)
      (by decide))]
  rw [runLoop_succ_term cfg orc task k _ _ _
    (iterate_llmFail_term cfg orc task _ _ (by decide) (by exact h2) (by decide))]
  have hstep : cfg.maxSteps - (k + 1) = 2 := by omega
  rw [hstep]
  decide

theorem C5_parse_failures_witness :
    3 ≤ defaultCfg.maxSteps ∧ preGuard demoTask = none ∧
    demoOrcFail.llm 0 = none ∧ demoOrcFail.llm 1 = none ∧
    demoOrcFail.llm 2 = none ∧
    runTask defaultCfg demoOrcFail demoTask =
      ([.reason [] [], .llmFail, .inject correctiveMsg,
        .reason [] [], .llmFail, .inject correctiveMsg,
        .reason [] [], .llmFail,
        .finalize 2 .llmErr (some "error_internal") (str "System error.") []],
       ⟨some "error_internal", str "System error.", []⟩) :=
  ⟨by decide, by decide, rfl, rfl, rfl,
   C5_parse_failures defaultCfg demoOrcFail demoTask (by decide) (by decide)
     rfl rfl rfl⟩

/-! ## C8: idempotence of compress_memory — structure of splitPipe/joinSep -/

theorem splitPipe_ne_nil (s : Str) : ∃ h t, splitPipe s = h :: t := by
  induction s with
  | nil => exact ⟨[], [], rfl⟩
  | cons c rest ih =>
    obtain ⟨h, t, hs⟩ := ih
    unfold splitPipe
    rw [hs]
    simp only []
    by_cases hc : c = '|'
    · rw [if_pos hc]
      exact ⟨[], h :: t, rfl⟩
    · rw [if_neg hc]
      exact ⟨c :: h, t, rfl⟩

theorem pipe_not_mem_splitPipe (s : Str) : ∀ p ∈ splitPipe s, '|' ∉ p := by
  induction s with
  | nil =>
    intro p hp
    simp [splitPipe] at hp
    subst hp
    simp
  | cons c rest ih =>
    intro p hp
    obtain ⟨h, t, hs⟩ := splitPipe_ne_nil rest
    unfold splitPipe at hp
    rw [hs] at hp
    simp only [] at hp
    by_cases hc : c = '|'
    · rw [if_pos hc] at hp
      rcases List.mem_cons.mp hp with h1 | h2
      · subst h1; simp
      · exact ih p (by rw [hs]; exact h2)
    · rw [if_neg hc] at hp
      rcases List.mem_cons.mp hp with h1 | h2
      · subst h1
        intro hmem
        rcases List.mem_cons.mp hmem with he | hm
        · exact hc he.symm
        · exact ih h (by rw [hs]; exact List.mem_cons_self h t) hm
      · exact ih p (by rw [hs]; exact List.mem_cons.mpr (Or.inr h2))

theorem splitPipe_pipe_cons (s : Str) :
    splitPipe ('|' :: s) = [] :: splitPipe s := by
  obtain ⟨h, t, hs⟩ := splitPipe_ne_nil s
  conv_lhs => unfold splitPipe
  rw [hs]
  simp

theorem splitPipe_space_cons (s : Str) (h : Str) (t : List Str)
    (hs : splitPipe s = h :: t) :
    splitPipe (' ' :: s) = (' ' :: h) :: t := by
  conv_lhs => unfold splitPipe
  rw [hs]
  simp

theorem splitPipe_append_no_pipe (s : Str) (h : Str) (t : List Str)
    (hs : splitPipe s = h :: t) :
    ∀ (a : Str), '|' ∉ a → splitPipe (a ++ s) = (a ++ h) :: t := by
  intro a
  induction a with
  | nil =>
    intro _
    simpa using hs
  | cons c a2 ih =>
    intro ha
    have hc : ¬ (c = '|') := by
      intro e
      exact ha (by rw [e]; exact List.mem_cons_self _ _)
    have ha2 : '|' ∉ a2 := fun m => ha (List.mem_cons_of_mem c m)
    show splitPipe (c :: (a2 ++ s)) = ((c :: a2) ++ h) :: t
    unfold splitPipe
    rw [ih ha2]
    simp [hc]

theorem splitPipe_eq_self (l : Str) (hl : '|' ∉ l) : splitPipe l = [l] := by
  have := splitPipe_append_no_pipe [] [] [] rfl l hl
  simpa using this

/-- One unfolding of `splitPipe` over `joinSep " | "` with at least two
    fragments. -/
theorem splitPipe_join_cons_cons (l l2 : Str) (ls : List Str)
    (hpipe : '|' ∉ l) (h : Str) (t : List Str)
    (hsplit : splitPipe (joinSep " | ".toList (l2 :: ls)) = h :: t) :
    splitPipe (joinSep " | ".toList (l :: l2 :: ls)) =
      (l ++ [' ']) :: (' ' :: h) :: t := by
  have h3 : splitPipe (' ' :: joinSep " | ".toList (l2 :: ls)) =
      (' ' :: h) :: t := splitPipe_space_cons _ _ _ hsplit
  have h2 : splitPipe ('|' :: ' ' :: joinSep " | ".toList (l2 :: ls)) =
      [] :: (' ' :: h) :: t := by
    rw [splitPipe_pipe_cons, h3]
  have ha : '|' ∉ l ++ [' '] := by
    intro hm
    rcases List.mem_append.mp hm with h1 | h1
    · exact hpipe h1
    · simp at h1
  have h4 := splitPipe_append_no_pipe _ _ _ h2 (l ++ [' ']) ha
  have hshape : joinSep " | ".toList (l :: l2 :: ls) =
      (l ++ [' ']) ++ ('|' :: ' ' :: joinSep " | ".toList (l2 :: ls)) := by
    show l ++ " | ".toList ++ joinSep " | ".toList (l2 :: ls) = _
    simp
  rw [hshape, h4]
  simp

/-- Fragment count of a rejoined fragment list. -/
theorem splitPipe_join_length (ls : List Str) (hp : ∀ l ∈ ls, '|' ∉ l) :
    (splitPipe (joinSep " | ".toList ls)).length = max 1 ls.length := by
  induction ls with
  | nil => decide
  | cons l ls2 ih =>
    cases ls2 with
    | nil =>
      rw [show joinSep " | ".toList [l] = l from rfl,
        splitPipe_eq_self l (hp l (List.mem_cons_self _ _))]
      simp
    | cons l2 ls3 =>
      have hp2 : ∀ x ∈ l2 :: ls3, '|' ∉ x :=
        fun x hx => hp x (List.mem_cons_of_mem _ hx)
      obtain ⟨h, t, hsplit⟩ := splitPipe_ne_nil (joinSep " | ".toList (l2 :: ls3))
      rw [splitPipe_join_cons_cons l l2 ls3 (hp l (List.mem_cons_self _ _)) h t hsplit]
      have := ih hp2
      rw [hsplit] at this
      simp at this ⊢
      omega

/-! ### Stripping lemmas -/

theorem ltrim_space_cons (x : Str) : ltrim (' ' :: x) = ltrim x := by
  simp [ltrim, List.dropWhile_cons, isSpace]

theorem rtrim_append_space (y : Str) : rtrim (y ++ [' ']) = rtrim y := by
  simp [rtrim, List.reverse_append, List.dropWhile_cons, isSpace]

theorem rtrim_rtrim (y : Str) : rtrim (rtrim y) = rtrim y := by
  unfold rtrim
  rw [List.reverse_reverse, List.dropWhile_idempotent]

theorem rtrim_prefix_of (y : Str) : rtrim y <+: y := by
  have h := List.dropWhile_suffix (l := y.reverse) isSpace
  have h2 := List.reverse_prefix.mpr h
  simpa [rtrim] using h2

theorem dropWhile_head_not (p : Char → Bool) :
    ∀ (l : List Char) (c : Char) (ys : List Char),
      l.dropWhile p = c :: ys → p c = false := by
  intro l
  induction l with
  | nil => intro c ys h; cases h
  | cons a l2 ih =>
    intro c ys h
    rw [List.dropWhile_cons] at h
    by_cases hp : p a = true
    · rw [if_pos hp] at h
      exact ih c ys h
    · rw [if_neg hp] at h
      cases h
      simpa using hp

theorem ltrim_rtrim_ltrim (x : Str) :
    ltrim (rtrim (ltrim x)) = rtrim (ltrim x) := by
  cases hyc : ltrim x with
  | nil => simp [rtrim, ltrim]
  | cons c ys =>
    have hc : isSpace c = false := dropWhile_head_not isSpace x c ys hyc
    cases hrc : rtrim (c :: ys) with
    | nil => simp [ltrim]
    | cons c2 t2 =>
      have hpre : c2 :: t2 <+: c :: ys := by
        rw [← hrc]
        exact rtrim_prefix_of _
      obtain ⟨he, -⟩ := List.cons_prefix_cons.mp hpre
      subst he
      simp [ltrim, List.dropWhile_cons, hc]

theorem strip_strip (x : Str) : strip (strip x) = strip x := by
  unfold strip
  rw [ltrim_rtrim_ltrim, rtrim_rtrim]

theorem strip_space_cons (x : Str) : strip (' ' :: x) = strip x := by
  unfold strip
  rw [ltrim_space_cons]

theorem ltrim_append_full (x y : Str) :
    ltrim (x ++ y) = if ltrim x = [] then ltrim y else ltrim x ++ y := by
  induction x with
  | nil => simp [ltrim]
  | cons c x2 ih =>
    by_cases hc : isSpace c = true
    · show ltrim (c :: (x2 ++ y)) = _
      unfold ltrim at ih ⊢
      rw [List.dropWhile_cons, if_pos hc, List.dropWhile_cons, if_pos hc, ih]
    · show ltrim (c :: (x2 ++ y)) = _
      unfold ltrim
      rw [List.dropWhile_cons, if_neg hc, List.dropWhile_cons, if_neg hc]
      simp

theorem strip_append_space (x : Str) : strip (x ++ [' ']) = strip x := by
  unfold strip
  rw [ltrim_append_full]
  by_cases hx : ltrim x = []
  · rw [if_pos hx, hx]
    simp [ltrim, rtrim, List.dropWhile_cons, isSpace]
  · rw [if_neg hx, rtrim_append_space]

theorem strip_isInfix_self (x : Str) : strip x <:+: x := by
  have h1 : ltrim x <:+ x := List.dropWhile_suffix _
  have h2 : rtrim (ltrim x) <+: ltrim x := rtrim_prefix_of _
  exact h2.isInfix.trans h1.isInfix

/-! ### "ERR" containment is unaffected by the padding spaces -/

theorem err_infix_space_cons (l : Str) :
    "ERR".toList <:+: (' ' :: l) ↔ "ERR".toList <:+: l := by
  rw [show ("ERR".toList : Str) = 'E' :: ['R', 'R'] from rfl]
  constructor
  · intro h
    rcases List.infix_cons_iff.mp h with hp | hi
    · obtain ⟨he, -⟩ := List.cons_prefix_cons.mp hp
      cases he
    · exact hi
  · intro h
    exact List.infix_cons_iff.mpr (Or.inr h)

theorem err_infix_append_space (l : Str) :
    "ERR".toList <:+: (l ++ [' ']) ↔ "ERR".toList <:+: l := by
  constructor
  · intro h
    have h2 := List.reverse_infix.mpr h
    rw [List.reverse_append] at h2
    have h3 : ("ERR".toList).reverse <:+: (' ' :: l.reverse) := by simpa using h2
    rw [show (("ERR".toList).reverse : Str) = 'R' :: ['R', 'E'] from rfl] at h3
    have h4 : ('R' :: ['R', 'E'] : Str) <:+: l.reverse := by
      rcases List.infix_cons_iff.mp h3 with hp | hi
      · obtain ⟨he, -⟩ := List.cons_prefix_cons.mp hp
        cases he
      · exact hi
    have h5 : ("ERR".toList).reverse <:+: l.reverse := by
      rw [show (("ERR".toList).reverse : Str) = 'R' :: ['R', 'E'] from rfl]
      exact h4
    exact List.reverse_infix.mp h5
  · intro h
    exact h.trans (List.prefix_append l [' ']).isInfix

/-! ### The line filter is unaffected by the padding spaces -/

theorem lineFilter_space_cons (l : Str) :
    lineFilter (' ' :: l) = lineFilter l := by
  unfold lineFilter
  rw [strip_space_cons]
  have herr : isInfixB "ERR".toList (' ' :: l) = isInfixB "ERR".toList l := by
    unfold isInfixB
    exact decide_eq_decide.mpr (err_infix_space_cons l)
  rw [herr]

theorem lineFilter_append_space (l : Str) :
    lineFilter (l ++ [' ']) = lineFilter l := by
  unfold lineFilter
  rw [strip_append_space]
  have herr : isInfixB "ERR".toList (l ++ [' ']) = isInfixB "ERR".toList l := by
    unfold isInfixB
    exact decide_eq_decide.mpr (err_infix_append_space l)
  rw [herr]

/-- Splitting a rejoined list of already-clean fragments and filtering again
    recovers exactly the fragments. -/
theorem filterMap_splitPipe_join (ls : List Str)
    (hprops : ∀ l ∈ ls, strip l = l ∧ l ≠ [] ∧
      ¬ ("ERR".toList <:+: l) ∧ '|' ∉ l) :
    (splitPipe (joinSep " | ".toList ls)).filterMap lineFilter = ls := by
  induction ls with
  | nil => decide
  | cons l ls2 ih =>
    obtain ⟨hstrip, hne, herr, hpipe⟩ := hprops l (List.mem_cons_self _ _)
    have hl : lineFilter l = some l := by
      unfold lineFilter
      rw [hstrip]
      rw [if_pos ⟨hne, by unfold isInfixB; simpa using herr⟩]
    cases ls2 with
    | nil =>
      rw [show joinSep " | ".toList [l] = l from rfl, splitPipe_eq_self l hpipe]
      simp [hl]
    | cons l2 ls3 =>
      have hprops2 : ∀ x ∈ l2 :: ls3, strip x = x ∧ x ≠ [] ∧
          ¬ ("ERR".toList <:+: x) ∧ '|' ∉ x :=
        fun x hx => hprops x (List.mem_cons_of_mem _ hx)
      obtain ⟨h, t, hsplit⟩ := splitPipe_ne_nil (joinSep " | ".toList (l2 :: ls3))
      rw [splitPipe_join_cons_cons l l2 ls3 hpipe h t hsplit]
      rw [List.filterMap_cons, lineFilter_append_space, hl]
      rw [List.filterMap_cons, lineFilter_space_cons]
      have := ih hprops2
      rw [hsplit, List.filterMap_cons] at this
      cases hfh : lineFilter h with
      | none =>
        rw [hfh] at this
        simp only [] at this
        simp only []
        rw [this]
      | some w =>
        rw [hfh] at this
        simp at this ⊢
        exact this

/-! ### Properties of the retained fragments -/

theorem mem_takeLast {α : Type} (n : Nat) (l : List α) (p : α)
    (h : p ∈ takeLast n l) : p ∈ l :=
  List.drop_subset _ _ h

theorem takeLast_length_le {α : Type} (n : Nat) (l : List α) :
    (takeLast n l).length ≤ n := by
  unfold takeLast
  rw [List.length_drop]
  omega

theorem takeLast_of_length_le {α : Type} (n : Nat) (l : List α)
    (h : l.length ≤ n) : takeLast n l = l := by
  unfold takeLast
  rw [Nat.sub_eq_zero_of_le h]
  exact List.drop_zero l

theorem compressLines_props (m : Str) : ∀ l ∈ compressLines m,
    strip l = l ∧ l ≠ [] ∧ ¬ ("ERR".toList <:+: l) ∧ '|' ∉ l ∧
      isSignal l = true := by
  intro l hl
  unfold compressLines at hl
  have h1 := mem_takeLast _ _ _ hl
  obtain ⟨h2, hsig⟩ := List.mem_filter.mp h1
  have h3 := mem_takeLast _ _ _ h2
  obtain ⟨x, hx, hfx⟩ := List.mem_filterMap.mp h3
  unfold lineFilter at hfx
  by_cases hc : strip x ≠ [] ∧ ¬ (isInfixB "ERR".toList x) = true
  · rw [if_pos hc] at hfx
    obtain ⟨hne, herrx⟩ := hc
    have hlx : l = strip x := by injection hfx with h; exact h.symm
    subst hlx
    refine ⟨strip_strip x, hne, ?_, ?_, hsig⟩
    · intro habs
      exact herrx (by
        unfold isInfixB
        simpa using habs.trans (strip_isInfix_self x))
    · intro hmem
      exact pipe_not_mem_splitPipe m x hx ((strip_isInfix_self x).subset hmem)
  · rw [if_neg hc] at hfx
    cases hfx

/-- Fragment count of compressed memory: at most 12 retained fragments. -/
theorem splitPipe_compress_le (m : Str) :
    (splitPipe (compress_memory m)).length ≤ 12 := by
  unfold compress_memory
  have hp : ∀ l ∈ compressLines m, '|' ∉ l :=
    fun l hl => ((compressLines_props m l hl).2.2.2).1
  rw [splitPipe_join_length _ hp]
  have hlen : (compressLines m).length ≤ 12 := takeLast_length_le _ _
  omega

/-- C8: `compress_memory` is idempotent. -/
theorem C8_compress_idempotent (m : Str) :
    compress_memory (compress_memory m) = compress_memory m := by
  have hprops := compressLines_props m
  have hkey : compressLines (compress_memory m) = compressLines m := by
    show compressLines (joinSep " | ".toList (compressLines m)) = compressLines m
    unfold compressLines
    rw [show splitPipe (joinSep " | ".toList
        (takeLast 12 ((takeLast 20 ((splitPipe m).filterMap lineFilter)).filter isSignal)))
      = splitPipe (joinSep " | ".toList (compressLines m)) from rfl]
    rw [filterMap_splitPipe_join (compressLines m)
      (fun l hl => ⟨(hprops l hl).1, (hprops l hl).2.1,
        (hprops l hl).2.2.1, ((hprops l hl).2.2.2).1⟩)]
    have h12 : (compressLines m).length ≤ 12 := takeLast_length_le _ _
    rw [takeLast_of_length_le 20 _ (by omega)]
    rw [List.filter_eq_self.mpr (fun a ha => ((hprops a ha).2.2.2).2)]
    exact takeLast_of_length_le 12 _ h12
  show joinSep " | ".toList (compressLines (compress_memory m)) =
    compress_memory m
  rw [hkey]
  rfl

/-! ## C9: bounded memory and scratch -/

/-- Event form: every reasoning call is made with a memory string of at
    most 12 fragments (it has just been re-compressed). -/
def memBoundEv : Event → Bool
  | .reason mem _ => decide ((splitPipe mem).length ≤ 12)
  | _ => true

theorem memBoundEv_reason_compress (m s : Str) :
    memBoundEv (.reason (compress_memory m) s) = true := by
  simp only [memBoundEv, decide_eq_true_eq]
  exact splitPipe_compress_le m

theorem runLoop_memBound (cfg : Cfg) (orc : Oracles) (task : Task) :
    ∀ (n : Nat) (st : LoopState),
      (runLoop cfg orc task n st).1.all memBoundEv = true := by
  intro n st
  refine runLoop_all cfg orc task memBoundEv (fun _ => True) ?_ ?_ n st trivial
  · intro st step _
    refine ⟨?_, fun _ _ => trivial⟩
    unfold iterate
    simp only []
    repeat' split
    all_goals simp [memBoundEv, memBoundEv_reason_compress, splitPipe_compress_le,
      handleFinal_events, handleApiErr_events, successPhase_events]
  · intro st _
    unfold exhaustedResult
    simp only []
    repeat' split
    all_goals simp [memBoundEv]

/-- C9: the loop state stays bounded.  (1) Every reasoning call of every
    run receives a memory string that was just re-compressed to at most 12
    fragments; (2) compressed memory always has at most 12 fragments, and
    re-merging returned memory through `mergeMemory` keeps that bound;
    (3) whenever the reasoning step supplies new scratch, the stored
    scratch is truncated to at most its last 500 characters. -/
theorem C9_bounded_state :
    (∀ (cfg : Cfg) (orc : Oracles) (task : Task),
       (runTask cfg orc task).1.all memBoundEv = true) ∧
    (∀ (m nsMem : Str),
       (splitPipe (mergeMemory (compress_memory m) nsMem)).length ≤ 12) ∧
    (∀ (old nsScratch : Str), nsScratch ≠ [] →
       (updateScratch old nsScratch).length ≤ 500) := by
  refine ⟨?_, ?_, ?_⟩
  · intro cfg orc task
    unfold runTask
    cases preGuard task with
    | some om => simp [memBoundEv]
    | none => exact runLoop_memBound cfg orc task cfg.maxSteps initState
  · intro m nsMem
    unfold mergeMemory
    split
    · exact splitPipe_compress_le _
    · exact splitPipe_compress_le _
  · intro old nsScratch h
    unfold updateScratch
    rw [if_pos h]
    have := takeLast_length_le 500 nsScratch
    unfold takeLast at this ⊢
    omega

theorem C9_bounded_state_witness :
    (runTask defaultCfg demoOrcFail demoTask).1.all memBoundEv = true ∧
    (splitPipe (mergeMemory (compress_memory (str "a | proj_x")) (str "emp_y ok"))).length ≤ 12 ∧
    (str "notes" ≠ [] ∧ (updateScratch [] (str "notes")).length ≤ 500) :=
  ⟨C9_bounded_state.1 defaultCfg demoOrcFail demoTask,
   C9_bounded_state.2.1 (str "a | proj_x") (str "emp_y ok"),
   by decide,
   C9_bounded_state.2.2 [] (str "notes") (by decide)⟩

/-! ## C6: a system-classified domain error is immediately terminal -/

/-- Is this event a system-classified domain-API error? -/
def isSysErrEv : Event → Bool
  | .apiError .system _ => true
  | _ => false

/-- Scan phases: before any system error / right after one (exactly the
    terminal response may follow) / terminated / violation. -/
inductive SysPhase
  | normal | afterSys | closed | bad
  deriving DecidableEq, Repr

def sysUpd : SysPhase → Event → SysPhase
  | .normal, .apiError .system _ => .afterSys
  | .normal, _ => .normal
  | .afterSys, .finalize _ .systemErr o m l =>
    if o = some "error_internal" ∧ m = str "System error." ∧ l = [] then .closed
    else .bad
  | .afterSys, _ => .bad
  | .closed, _ => .bad
  | .bad, _ => .bad

def sysChk (s : SysPhase) (e : Event) : Bool := decide (sysUpd s e ≠ .bad)

theorem sysUpd_normal_of_not_sys (e : Event) (h : isSysErrEv e = false) :
    sysUpd .normal e = .normal := by
  cases e with
  | apiError cls m => cases cls <;> simp_all [sysUpd, isSysErrEv]
  | _ => rfl

theorem scanOk_normal_of_no_sys (evs : List Event)
    (h : evs.all (fun e => !(isSysErrEv e)) = true) :
    scanOk sysUpd sysChk SysPhase.normal evs = true ∧
      evs.foldl sysUpd SysPhase.normal = SysPhase.normal := by
  induction evs with
  | nil => exact ⟨rfl, rfl⟩
  | cons e r ih =>
    rw [List.all_cons, Bool.and_eq_true] at h
    have he : isSysErrEv e = false := by simpa using h.1
    have hupd := sysUpd_normal_of_not_sys e he
    obtain ⟨h1, h2⟩ := ih h.2
    refine ⟨?_, ?_⟩
    · rw [scanOk_cons, hupd, h1]
      simp [sysChk, hupd]
    · rw [List.foldl_cons, hupd, h2]

theorem handleFinal_no_sys (cfg : Cfg) (task : Task) (st : LoopState)
    (step : Nat) (a0 : Action) :
    (handleFinal cfg task st step a0).1.all (fun e => !(isSysErrEv e)) = true :=
  handleFinal_events cfg task st step a0 _ (fun _ => rfl) (fun _ _ _ _ _ => rfl)

theorem successPhase_no_sys (task : Task) (st : LoopState) (ns : NextStep)
    (fn : Action) (res : ApiResult) (step : Nat) :
    (successPhase task st ns fn res step).1.all (fun e => !(isSysErrEv e)) = true :=
  successPhase_events task st ns fn res step _ (fun _ => rfl) (fun _ _ _ _ _ => rfl)

theorem handleApiErr_sysScan (st : LoopState) (step : Nat) (fn : Action)
    (err : Str) :
    scanOk sysUpd sysChk SysPhase.normal (handleApiErr st step fn err).1 = true := by
  unfold handleApiErr
  simp only []
  repeat' split
  all_goals simp [scanOk, sysUpd, sysChk, isSysErrEv]

theorem handleApiErr_sysFold (st : LoopState) (step : Nat) (fn : Action)
    (err : Str) (st' : LoopState)
    (h : (handleApiErr st step fn err).2 = Sum.inr st') :
    (handleApiErr st step fn err).1.foldl sysUpd SysPhase.normal
      = SysPhase.normal := by
  unfold handleApiErr at h ⊢
  simp only [] at h ⊢
  repeat' split
  all_goals simp_all [sysUpd]

theorem scanOk_sys_cons2 (m s : Str) (k : Nat) (a : Action)
    (rest : List Event)
    (h : scanOk sysUpd sysChk SysPhase.normal rest = true) :
    scanOk sysUpd sysChk SysPhase.normal
      (Event.reason m s :: Event.dispatch k a :: rest) = true := by
  rw [scanOk_cons, scanOk_cons]
  simp [sysChk, sysUpd, h]

theorem foldl_sys_cons2 (m s : Str) (k : Nat) (a : Action)
    (rest : List Event)
    (h : rest.foldl sysUpd SysPhase.normal = SysPhase.normal) :
    (Event.reason m s :: Event.dispatch k a :: rest).foldl sysUpd
      SysPhase.normal = SysPhase.normal := by
  simp [List.foldl_cons, sysUpd, h]

theorem runLoop_sysScan (cfg : Cfg) (orc : Oracles) (task : Task) :
    ∀ (n : Nat) (st : LoopState),
      scanOk sysUpd sysChk SysPhase.normal (runLoop cfg orc task n st).1 = true := by
  intro n st
  refine runLoop_scan cfg orc task sysUpd sysChk
    (fun _ s => s = SysPhase.normal) ?_ ?_ n st SysPhase.normal rfl
  · intro st step s hs
    subst hs
    unfold iterate
    simp only []
    repeat' split
    all_goals refine ⟨?_, fun st' h => ?_⟩
    all_goals try (first
      | (exact (scanOk_normal_of_no_sys _
          (by simp only [List.all_cons, Bool.and_eq_true]
              exact ⟨rfl, handleFinal_no_sys _ _ _ _ _⟩)).1)
      | (exact (scanOk_normal_of_no_sys _
          (by simp only [List.all_cons, Bool.and_eq_true]
              exact ⟨rfl, rfl, successPhase_no_sys _ _ _ _ _ _⟩)).1)
      | (exact scanOk_sys_cons2 _ _ _ _ _ (handleApiErr_sysScan _ _ _ _))
      | (simp [scanOk, sysUpd, sysChk]; done))
    all_goals show _ = SysPhase.normal
    all_goals try (first
      | (exact (scanOk_normal_of_no_sys _
          (by simp only [List.all_cons, Bool.and_eq_true]
              exact ⟨rfl, handleFinal_no_sys _ _ _ _ _⟩)).2)
      | (exact (scanOk_normal_of_no_sys _
          (by simp only [List.all_cons, Bool.and_eq_true]
              exact ⟨rfl, rfl, successPhase_no_sys _ _ _ _ _ _⟩)).2)
      | (simp [List.foldl_cons, sysUpd]; done))
    all_goals refine foldl_sys_cons2 _ _ _ _ _ ?_
    all_goals simp only [] at h
    all_goals exact handleApiErr_sysFold _ _ _ _ _ h
  · intro st s hs
    subst hs
    unfold exhaustedResult
    simp only []
    repeat' split
    all_goals simp [scanOk, sysUpd, sysChk]

/-- One iteration hitting a system-classified `ApiException`. -/
theorem iterate_systemErr (cfg : Cfg) (orc : Oracles) (task : Task)
    (st : LoopState) (step : Nat) (ns : NextStep) (msg : Str)
    (hg : st.apiFails < 3)
    (ho : orc.llm st.llmCalls = some ns)
    (hhall : hallucinatedField (clampLimit ns.function) = none)
    (hkind : ¬ (enrich task.currentUser (clampLimit ns.function)).kind
      = ActionKind.provideAgentResponse)
    (hapi : orc.api st.apiCalls = ApiOutcome.apiErr msg)
    (hsys : classify_error msg = ErrClass.system) :
    iterate cfg orc task st step =
      ([.reason (compress_memory st.memory) st.scratch,
        .dispatch step (enrich task.currentUser (clampLimit ns.function)),
        .apiError .system msg,
        .finalize step .systemErr (some "error_internal") (str "System error.") []],
       .inl ⟨some "error_internal", str "System error.", []⟩) := by
  unfold iterate
  rw [if_neg (by omega)]
  simp only [ho, hhall]
  rw [if_neg hkind]
  simp only [hapi]
  unfold handleApiErr
  simp only [hsys]

/-- C6: the first domain-API error classified `system` is terminal on the
    spot.  Part 1: such an iteration returns a terminal result — outcome
    error_internal with an empty link list, its trace being exactly the
    reasoning call, the single (unretried) dispatch, the classified error
    and the terminal response.  Part 2: in every run's trace, a
    system-classified error event is only ever followed by that terminal
    response and nothing else — no retry and no further reasoning step. -/
theorem C6_system_error_terminal :
    (∀ (cfg : Cfg) (orc : Oracles) (task : Task) (st : LoopState)
       (step : Nat) (ns : NextStep) (msg : Str),
       st.apiFails < 3 →
       orc.llm st.llmCalls = some ns →
       hallucinatedField (clampLimit ns.function) = none →
       ¬ (enrich task.currentUser (clampLimit ns.function)).kind
         = ActionKind.provideAgentResponse →
       orc.api st.apiCalls = ApiOutcome.apiErr msg →
       classify_error msg = ErrClass.system →
       iterate cfg orc task st step =
         ([.reason (compress_memory st.memory) st.scratch,
           .dispatch step (enrich task.currentUser (clampLimit ns.function)),
           .apiError .system msg,
           .finalize step .systemErr (some "error_internal")
             (str "System error.") []],
          .inl ⟨some "error_internal", str "System error.", []⟩)) ∧
    (∀ (cfg : Cfg) (orc : Oracles) (task : Task),
       scanOk sysUpd sysChk SysPhase.normal (runTask cfg orc task).1 = true) := by
  constructor
  · intro cfg orc task st step ns msg hg ho hhall hkind hapi hsys
    exact iterate_systemErr cfg orc task st step ns msg hg ho hhall hkind hapi hsys
  · intro cfg orc task
    unfold runTask
    cases preGuard task with
    | some om => simp [scanOk, sysUpd, sysChk]
    | none => exact runLoop_sysScan cfg orc task cfg.maxSteps initState

/-- Oracles: a search proposal answered by a 502 gateway error. -/
def demoOrc502 : Oracles :=
  ⟨fun _ => some (demoNS (demoSearch 3) false),
   fun _ => .apiErr (str "Gateway 502 down")⟩

theorem C6_system_error_terminal_witness :
    initState.apiFails < 3 ∧
    classify_error (str "Gateway 502 down") = ErrClass.system ∧
    iterate defaultCfg demoOrc502 demoTask initState 0 =
      ([.reason (compress_memory initState.memory) initState.scratch,
        .dispatch 0 (enrich demoTask.currentUser
          (clampLimit (demoNS (demoSearch 3) false).function)),
        .apiError .system (str "Gateway 502 down"),
        .finalize 0 .systemErr (some "error_internal") (str "System error.") []],
       .inl ⟨some "error_internal", str "System error.", []⟩) ∧
    scanOk sysUpd sysChk SysPhase.normal
      (runTask defaultCfg demoOrc502 demoTask).1 = true :=
  ⟨by decide, by decide,
   C6_system_error_terminal.1 defaultCfg demoOrc502 demoTask initState 0
     (demoNS (demoSearch 3) false) (str "Gateway 502 down")
     (by decide) rfl (by decide) (by decide) rfl (by decide),
   C6_system_error_terminal.2 defaultCfg demoOrc502 demoTask⟩

/-! ## C1: time-logging tasks and ok_answer -/

/-- Is this event a domain-API dispatch? -/
def isDispatchEv : Event → Bool
  | .dispatch _ _ => true
  | _ => false

/-- Scan state: has a `Req_LogTimeEntry` dispatch occurred so far? -/
def c1Upd : Bool → Event → Bool
  | seen, .dispatch _ a => seen || a.kind == ActionKind.logTimeEntry
  | seen, _ => seen

/-- The check: a final-response dispatch proposing exactly `ok_answer` at a
    step before the waiver window requires a prior time-log dispatch. -/
def c1Chk (ms : Nat) : Bool → Event → Bool
  | seen, .finalize step (.response p) _ _ _ =>
    !(p == "ok_answer" && decide (step < ms - 5)) || seen
  | _, _ => true

theorem c1Upd_true (e : Event) : c1Upd true e = true := by
  cases e <;> simp [c1Upd]

theorem c1_fold_true (evs : List Event) : evs.foldl c1Upd true = true := by
  induction evs with
  | nil => rfl
  | cons e r ih => rw [List.foldl_cons, c1Upd_true]; exact ih

theorem c1_fold_no_dispatch (evs : List Event)
    (h : evs.all (fun e => !(isDispatchEv e)) = true) :
    ∀ seen, evs.foldl c1Upd seen = seen := by
  induction evs with
  | nil => intro seen; rfl
  | cons e r ih =>
    intro seen
    rw [List.all_cons, Bool.and_eq_true] at h
    have he : c1Upd seen e = seen := by
      cases e <;> simp_all [c1Upd, isDispatchEv]
    rw [List.foldl_cons, he]
    exact ih h.2 seen

theorem c1_scan_from_true (ms : Nat) (evs : List Event) :
    scanOk c1Upd (c1Chk ms) true evs = true := by
  induction evs with
  | nil => rfl
  | cons e r ih =>
    rw [scanOk_cons, c1Upd_true]
    have : c1Chk ms true e = true := by
      cases e with
      | finalize k v o m l => cases v <;> simp [c1Chk]
      | _ => rfl
    simp [this, ih]

theorem histHas_append_one (hist : List (String × Str)) (key : String × Str)
    (name : String) :
    histHas (hist ++ [key]) name = (histHas hist name || decide (key.1 = name)) := by
  simp [histHas, List.any_append]

theorem className_eq_lte (k : ActionKind)
    (h : className k = "Req_LogTimeEntry") : k = ActionKind.logTimeEntry := by
  cases k <;> first | rfl | (exact absurd h (by decide))

/-- If `required` came out empty on a time-logging instruction, the history
    already has a time-log call: each of the three overwriting assignments
    produces `some`, so all three guards must have been false, in particular
    the time-log one. -/
theorem requiredMutation_none_timelog (tl : Str) (hist : List (String × Str))
    (hTL : timeLogText tl = true)
    (h : requiredMutation tl hist = none) :
    histHas hist "Req_LogTimeEntry" = true := by
  unfold requiredMutation at h
  simp only [] at h
  repeat' split at h
  all_goals first
    | exact Option.noConfusion h
    | (rename_i hc
       simp only [not_and] at hc
       simpa using hc hTL)

theorem handleFinal_no_dispatch (cfg : Cfg) (task : Task) (st : LoopState)
    (step : Nat) (a0 : Action) :
    (handleFinal cfg task st step a0).1.all (fun e => !(isDispatchEv e)) = true :=
  handleFinal_events cfg task st step a0 _ (fun _ => rfl) (fun _ _ _ _ _ => rfl)

theorem successPhase_no_dispatch (task : Task) (st : LoopState)
    (ns : NextStep) (fn : Action) (res : ApiResult) (step : Nat) :
    (successPhase task st ns fn res step).1.all (fun e => !(isDispatchEv e)) = true :=
  successPhase_events task st ns fn res step _ (fun _ => rfl) (fun _ _ _ _ _ => rfl)

theorem handleApiErr_no_dispatch (st : LoopState) (step : Nat) (fn : Action)
    (err : Str) :
    (handleApiErr st step fn err).1.all (fun e => !(isDispatchEv e)) = true :=
  handleApiErr_events st step fn err _ (fun _ => rfl) (fun _ _ => rfl)
    (fun _ _ _ _ _ => rfl)

theorem handleApiErr_c1Scan (ms : Nat) (st : LoopState) (step : Nat)
    (fn : Action) (err : Str) (seen : Bool) :
    scanOk c1Upd (c1Chk ms) seen (handleApiErr st step fn err).1 = true := by
  unfold handleApiErr
  simp only []
  repeat' split
  all_goals simp [scanOk, c1Upd, c1Chk]

theorem successPhase_c1Scan (ms : Nat) (task : Task) (st : LoopState)
    (ns : NextStep) (fn : Action) (res : ApiResult) (step : Nat) (seen : Bool) :
    scanOk c1Upd (c1Chk ms) seen (successPhase task st ns fn res step).1 = true := by
  unfold successPhase
  simp only []
  repeat' split
  all_goals simp [scanOk, scanOk_append, c1Upd, c1Chk]

/-- The final-response branch respects the premature-completion guard for a
    time-logging task: any `ok_answer` response dispatched before the
    waiver window implies a prior `Req_LogTimeEntry` in call history. -/
theorem handleFinal_c1Scan (cfg : Cfg) (task : Task) (st : LoopState)
    (step : Nat) (a0 : Action) (seen : Bool)
    (hsb : st.systemBroken = false)
    (hseen : histHas st.callHistory "Req_LogTimeEntry" = true → seen = true)
    (hTL : timeLogText (strLower task.text) = true) :
    scanOk c1Upd (c1Chk cfg.maxSteps) seen (handleFinal cfg task st step a0).1 = true := by
  unfold handleFinal submitResponse
  simp only []
  repeat' split
  all_goals try (simp [scanOk, c1Upd, c1Chk]; done)
  all_goals try (simp_all [scanOk, c1Upd, c1Chk]; done)
  all_goals
    (have hseen2 : seen = true := hseen
      (requiredMutation_none_timelog _ _ hTL (by assumption))
     simp [scanOk, c1Upd, c1Chk, hseen2])

theorem runLoop_c1Scan (cfg : Cfg) (orc : Oracles) (task : Task)
    (hTL : timeLogText (strLower task.text) = true) :
    ∀ (n : Nat) (st : LoopState) (seen : Bool),
      st.systemBroken = false →
      (histHas st.callHistory "Req_LogTimeEntry" = true → seen = true) →
      scanOk c1Upd (c1Chk cfg.maxSteps) seen (runLoop cfg orc task n st).1 = true := by
  intro n st seen hsb hseen
  refine runLoop_scan cfg orc task c1Upd (c1Chk cfg.maxSteps)
    (fun st seen => st.systemBroken = false ∧
      (histHas st.callHistory "Req_LogTimeEntry" = true → seen = true))
    ?_ ?_ n st seen ⟨hsb, hseen⟩
  · intro st step seen hinv
    obtain ⟨hsb2, hseen2⟩ := hinv
    constructor
    · unfold iterate
      simp only []
      repeat' split
      all_goals try (simp [scanOk, c1Upd, c1Chk]; done)
      all_goals try (
        rw [scanOk_cons]
        simp only [c1Chk, c1Upd, Bool.true_and]
        exact handleFinal_c1Scan cfg task _ step _ seen hsb2 hseen2 hTL)
      all_goals (
        rw [scanOk_cons, scanOk_cons]
        simp only [c1Chk, c1Upd, Bool.true_and]
        first
          | exact handleApiErr_c1Scan _ _ _ _ _ _
          | exact successPhase_c1Scan _ _ _ _ _ _ _ _)
    · intro st' h
      unfold iterate at h ⊢
      simp only [] at h ⊢
      revert h
      repeat' split
      all_goals intro h
      all_goals try (simp only [] at h)
      all_goals try (simp at h; done)
      all_goals try (
        simp only [Sum.inr.injEq] at h
        subst h
        refine ⟨hsb2, fun hh => ?_⟩
        rw [hseen2 hh]
        exact c1_fold_true _)
      all_goals try (
        have hst := handleFinal_inr _ _ _ _ _ _ h
        subst hst
        refine ⟨hsb2, fun hh => ?_⟩
        rw [hseen2 hh]
        exact c1_fold_true _)
      all_goals try (
        have hst := handleApiErr_inr _ _ _ _ _ h
        subst hst
        refine ⟨hsb2, fun hh => ?_⟩
        rw [hseen2 hh]
        exact c1_fold_true _)
      all_goals (
        obtain ⟨h1, h2, h3, h4, h5, h6, h7⟩ := successPhase_inr _ _ _ _ _ _ _ h
        refine ⟨by rw [h2]; exact hsb2, fun hh => ?_⟩
        rw [h7, histHas_append_one] at hh
        rw [List.foldl_cons, List.foldl_cons,
          c1_fold_no_dispatch _ (successPhase_no_dispatch _ _ _ _ _ _)]
        simp only [c1Upd]
        rw [Bool.or_eq_true] at hh
        cases hh with
        | inl hcase => rw [hseen2 hcase]; simp
        | inr hcase =>
          rw [className_eq_lte _ (of_decide_eq_true hcase)]
          simp)
  · intro st seen hinv
    unfold exhaustedResult
    simp only []
    repeat' split
    all_goals simp [scanOk, c1Upd, c1Chk]

/-- A time-logging task (contains "log" and "hour"), non-guest. -/
def c1Task : Task := ⟨str "log 3 hours for the cv project", false,
  some (str "ana_kovac"), str "2024-01-01"⟩

/-- A reasoning engine that immediately proposes a final response with
    outcome `ok_not_found`. -/
def c1Orc : Oracles :=
  ⟨fun _ => some (demoNS { blankAction .provideAgentResponse with
      outcome := some "ok_not_found",
      message := str "No matching project." } false),
   fun _ => .fault []⟩

/-- C1 counterexample: on a time-logging task, a final response proposing
    `ok_not_found` is rewritten to `ok_answer` while the premature-completion
    guard tests the original outcome variable and is skipped; the run
    terminates with outcome `ok_answer` although the trace contains no
    domain-API dispatch at all (in particular no `Req_LogTimeEntry`), and the
    outcome is neither `denied_security` nor `error_internal`. -/
theorem C1_timelog_counterexample :
    timeLogText (strLower c1Task.text) = true ∧
    (runTask defaultCfg c1Orc c1Task).2.outcome = some "ok_answer" ∧
    (runTask defaultCfg c1Orc c1Task).1.all (fun e => !(isDispatchEv e)) = true :=
  ⟨by decide, by decide, by decide⟩

/-- C1 (amended): for every task whose lowered instruction matches the
    time-logging check, every terminal response event on the
    `Req_ProvideAgentResponse` path whose proposed outcome variable is
    exactly `ok_answer`, reached before the final-5-steps waiver window, is
    preceded by a `Req_LogTimeEntry` dispatch in the event trace.  (The
    `ok_not_found` rewrite, the `done` flag, and the waiver paths are
    excluded — the counterexample shows the original claim fails on them.) -/
theorem C1_timelog (cfg : Cfg) (orc : Oracles) (task : Task)
    (hTL : timeLogText (strLower task.text) = true) :
    scanOk c1Upd (c1Chk cfg.maxSteps) false (runTask cfg orc task).1 = true := by
  unfold runTask
  split
  · rfl
  · exact runLoop_c1Scan cfg orc task hTL cfg.maxSteps initState false
      rfl (fun h => by simp [histHas, initState] at h)

theorem C1_timelog_witness :
    timeLogText (strLower c1Task.text) = true ∧
    scanOk c1Upd (c1Chk defaultCfg.maxSteps) false
      (runTask defaultCfg c1Orc c1Task).1 = true :=
  ⟨by decide, C1_timelog defaultCfg c1Orc c1Task (by decide)⟩

end Ooda
